import Mathlib

/-!
Shallow embedding of `ReadoutApplication::generate_modules`
(src/ReadoutApplication.cpp) from the readoutdal repository, together with
theorems settling the specification claims about it.

The configuration store is modelled as the list of records created so far,
in creation order, each record carrying its final field values.  A thrown
`BadConf` is modelled as `GenError.badConf`; dereferencing a null pointer
(which in the C++ is a crash, not a thrown exception) is modelled as
`GenError.nullDeref` naming the pointer that was null.  Machine integers
are modelled as `Nat` with explicit reduction: accessors returning
`uint32_t`/`uint16_t` reduce modulo `2^32`/`2^16`.
-/

namespace Readoutdal

/-- readoutdal `QueueDescriptor` (queue connection descriptor). -/
structure QueueDescriptor where
  data_type : String
  queue_type : String
  capacity : Nat
deriving DecidableEq, Repr

/-- `get_capacity` returns `uint32_t`. -/
def QueueDescriptor.get_capacity (d : QueueDescriptor) : Nat :=
  d.capacity % 4294967296

/-- readoutdal `NetworkConnectionDescriptor`. -/
structure NetworkConnectionDescriptor where
  data_type : String
  connection_type : String
  uri : String
  port : Nat
  uid_base : String
deriving DecidableEq, Repr

/-- `get_port` returns `uint16_t`. -/
def NetworkConnectionDescriptor.get_port (d : NetworkConnectionDescriptor) : Nat :=
  d.port % 65536

/-- readoutdal `QueueConnectionRule`: a destination class and a descriptor. -/
structure QueueConnectionRule where
  destination_class : String
  descriptor : QueueDescriptor
deriving DecidableEq, Repr

/-- readoutdal `NetworkConnectionRule`: an endpoint class and a descriptor. -/
structure NetworkConnectionRule where
  endpoint_class : String
  descriptor : NetworkConnectionDescriptor
deriving DecidableEq, Repr

/-- readoutdal `DROStreamConf`: one data stream.  `disabled` records the
value of `stream->disabled(*session)` for the session the generator is
invoked with. -/
structure DROStreamConf where
  src_id : Nat
  disabled : Bool
deriving DecidableEq, Repr

/-- `get_src_id` returns `uint32_t`. -/
def DROStreamConf.get_src_id (s : DROStreamConf) : Nat :=
  s.src_id % 4294967296

/-- An element of a ReadoutGroup's `contains` list.  `castDROStreamConf`
models `res->cast<DROStreamConf>()`: `none` when the contained item is not
a `DROStreamConf`. -/
structure ResItem where
  castDROStreamConf : Option DROStreamConf
deriving DecidableEq, Repr

/-- An element of the application's `contains` list.  `disabled` records
`roGroup->disabled(*session)`; `castReadoutGroup` models
`roGroup->cast<ReadoutGroup>()`, giving the group's contained items when
the cast succeeds. -/
structure ContainedResource where
  disabled : Bool
  castReadoutGroup : Option (List ResItem)
deriving DecidableEq, Repr

/-- readoutdal `LinkHandlerConf`: the per-stream handler template.
`config_object` stands for the opaque OKS config object reference. -/
structure LinkHandlerConf where
  template_for : String
  config_object : String
deriving DecidableEq, Repr

/-- readoutdal `TPHandlerConf` (opaque config object reference only). -/
structure TPHandlerConf where
  config_object : String
deriving DecidableEq, Repr

/-- readoutdal `DataReaderConf`: the per-group reader template. -/
structure DataReaderConf where
  template_for : String
  config_object : String
deriving DecidableEq, Repr

/-- The `ReadoutApplication` inputs consumed by `generate_modules`.
Relationship accessors that can return a null pointer are `Option`s. -/
structure ReadoutApplication where
  uid : String
  link_handler : Option LinkHandlerConf
  tp_handler : Option TPHandlerConf
  tp_src_id : Nat
  data_reader : Option DataReaderConf
  queue_rules : List QueueConnectionRule
  network_rules : List NetworkConnectionRule
  contains : List ContainedResource
deriving DecidableEq, Repr

/-- `get_tp_src_id` returns `uint32_t`. -/
def ReadoutApplication.get_tp_src_id (a : ReadoutApplication) : Nat :=
  a.tp_src_id % 4294967296

/-- A field value stored with `set_by_val` (string or unsigned integer). -/
inductive FieldVal where
  | str (s : String)
  | nat (n : Nat)
deriving DecidableEq, Repr

/-- One configuration-store record: class name, unique id, scalar fields
(`set_by_val`), single references (`set_obj`, by target uid) and reference
lists (`set_objs`, by target uids). -/
structure ConfRecord where
  className : String
  uid : String
  vals : List (String × FieldVal)
  refs : List (String × String)
  refLists : List (String × List String)
deriving DecidableEq, Repr

/-- How a run of `generate_modules` can abort: a thrown `BadConf`, or a
dereference of a null pointer (a crash in the C++, named by the pointer). -/
inductive GenError where
  | badConf (msg : String)
  | nullDeref (what : String)
deriving DecidableEq, Repr

/-- An element of the returned module vector, tagged by the typed
`confdb->get<...>` call that produced it and carrying the record uid. -/
inductive ModuleRef where
  | tpHandler (uid : String)
  | dlh (uid : String)
  | dataReader (uid : String)
deriving DecidableEq, Repr

/-- Lines 67-77: single scan of the queue rules.  The first component is
the DL-handler input queue descriptor (destination class `"DLH"` or the
handler template class), the second the TP-handler input queue descriptor
(destination class `"TPHandler"`, tested only when the first test failed).
Plain assignment means a later matching rule overwrites an earlier one. -/
def resolveQueueRules (rules : List QueueConnectionRule) (dlhClass : String) :
    Option QueueDescriptor × Option QueueDescriptor :=
  rules.foldl
    (fun acc rule =>
      if rule.destination_class = "DLH" ∨ rule.destination_class = dlhClass then
        (some rule.descriptor, acc.2)
      else if rule.destination_class = "TPHandler" then
        (acc.1, some rule.descriptor)
      else acc)
    (none, none)

/-- Lines 80-90: single scan of the network rules, same shape as
`resolveQueueRules` but keyed on the rule's endpoint class. -/
def resolveNetworkRules (rules : List NetworkConnectionRule) (dlhClass : String) :
    Option NetworkConnectionDescriptor × Option NetworkConnectionDescriptor :=
  rules.foldl
    (fun acc rule =>
      if rule.endpoint_class = "DLH" ∨ rule.endpoint_class = dlhClass then
        (some rule.descriptor, acc.2)
      else if rule.endpoint_class = "TPHandler" then
        (acc.1, some rule.descriptor)
      else acc)
    (none, none)

/-- The character printed for one decimal or hexadecimal digit; `std::hex`
stream output uses lowercase letters. -/
def digitCh (n : Nat) : Char :=
  if n < 10 then Char.ofNat (48 + n) else Char.ofNat (87 + n)

/-- Fuel-driven decimal digit rendering, most significant digit first;
`decDigits (n+1) n` renders `n` the way `std::to_string` does. -/
def decDigits : Nat → Nat → List Char
  | 0, _ => []
  | fuel + 1, n =>
    if n < 10 then [digitCh n]
    else decDigits fuel (n / 10) ++ [digitCh (n % 10)]

/-- `std::to_string` on an unsigned integer: base-10, no padding. -/
def decStr (n : Nat) : String :=
  String.mk (decDigits (n + 1) n)

/-- Lines 180-183: `uidStream.fill('0'); uidStream << ... << std::hex <<
std::setw(8) << id;` applied to a `uint32_t` id prints exactly eight
lowercase hexadecimal digits, most significant first, zero padded. -/
def hex8 (n : Nat) : String :=
  String.mk ((List.range 8).map (fun i => digitCh (n / 16 ^ (7 - i) % 16)))

/-- Lines 189-191: `uint16_t port = desc->get_port(); port = port ?
port + port_offset : port;` — a zero base port is kept as the sentinel 0,
otherwise the sum is truncated to 16 bits on assignment back to `port`. -/
def streamPort (basePort offset : Nat) : Nat :=
  if basePort = 0 then 0 else (basePort + offset) % 65536

/-- Lines 94-131: the TP-handler stage.  Returns the records created, the
module references pushed, and the uid of the TP input queue (needed later
as each stream handler's output).  All three `BadConf` checks precede any
`confdb->create`, so an error leaves the store untouched. -/
def tpStage (tpConf : Option TPHandlerConf)
    (tpNetDesc : Option NetworkConnectionDescriptor)
    (tpInputQDesc : Option QueueDescriptor) (tpsrc : Nat) :
    Except GenError (List ConfRecord × List ModuleRef × Option String) :=
  match tpConf with
  | none => .ok ([], [], none)
  | some conf =>
    match tpNetDesc with
    | none => .error (.badConf "No tpHandler network descriptor given")
    | some nd =>
      match tpInputQDesc with
      | none => .error (.badConf "No tpHandler input queue descriptor given")
      | some qd =>
        if tpsrc = 0 then
          .error (.badConf "No TPHandler src_id given")
        else
          let tpQueueUid := "inputToTPH-" ++ decStr tpsrc
          let tpNetUid := "ReqToTPH-" ++ decStr tpsrc
          let tpUid := "tphandler-" ++ decStr tpsrc
          let tpQueueObj : ConfRecord :=
            { className := "Queue", uid := tpQueueUid,
              vals := [("data_type", .str qd.data_type),
                       ("queue_type", .str qd.queue_type),
                       ("capacity", .nat qd.get_capacity)],
              refs := [], refLists := [] }
          let tpNetObj : ConfRecord :=
            { className := "NetworkConnection", uid := tpNetUid,
              vals := [("data_type", .str nd.data_type),
                       ("connection_type", .str nd.connection_type),
                       ("uri", .str nd.uri),
                       ("port", .nat nd.get_port)],
              refs := [], refLists := [] }
          let tpObj : ConfRecord :=
            { className := "TPHandler", uid := tpUid,
              vals := [("source_id", .nat tpsrc)],
              refs := [("handler_configuration", conf.config_object)],
              refLists := [("inputs", [tpQueueUid, tpNetUid])] }
          .ok ([tpQueueObj, tpNetObj, tpObj], [.tpHandler tpUid], some tpQueueUid)

/-- Lines 170-172: the handler's `outputs` reference list, set to the TP
input queue exactly when a TP handler config is present. -/
def outRefsOf (tpQueueUid : Option String) : List (String × List String) :=
  match tpQueueUid with
  | some q => [("outputs", [q])]
  | none => []

/-- Lines 163-203: build one enabled stream's DLH, queue and network
records at the given port offset.  The first component is the store
records created (in creation order, final field values); dereferencing an
unset descriptor crashes, leaving the records created so far.  On success
the result carries the queue uid (pushed onto the reader's queue list) and
the DLH module reference. -/
def buildStream (dlhClass dlhConfObj : String) (tpQueueUid : Option String)
    (qDesc : Option QueueDescriptor) (nDesc : Option NetworkConnectionDescriptor)
    (id offset : Nat) :
    List ConfRecord × Except GenError (String × ModuleRef) :=
  let uid := "DLH-" ++ decStr id
  let queueUid := "inputToDLH-" ++ decStr id
  let outRefs : List (String × List String) := outRefsOf tpQueueUid
  let dlhObj0 : ConfRecord :=
    { className := dlhClass, uid := uid,
      vals := [("source_id", .nat id)],
      refs := [("handler_configuration", dlhConfObj)],
      refLists := outRefs }
  match qDesc with
  | none =>
    ([dlhObj0, { className := "Queue", uid := queueUid,
                 vals := [], refs := [], refLists := [] }],
     .error (.nullDeref "dlhInputQDesc"))
  | some qd =>
    let queueObj : ConfRecord :=
      { className := "Queue", uid := queueUid,
        vals := [("data_type", .str qd.data_type),
                 ("queue_type", .str qd.queue_type),
                 ("capacity", .nat qd.get_capacity)],
        refs := [], refLists := [] }
    match nDesc with
    | none => ([dlhObj0, queueObj], .error (.nullDeref "dlhNetDesc"))
    | some nd =>
      let netUid := nd.uid_base ++ hex8 id
      let netObj : ConfRecord :=
        { className := "NetworkConnection", uid := netUid,
          vals := [("data_type", .str nd.data_type),
                   ("connection_type", .str nd.connection_type),
                   ("uri", .str nd.uri),
                   ("port", .nat (streamPort nd.get_port offset))],
          refs := [], refLists := [] }
      let dlhObj : ConfRecord :=
        { dlhObj0 with refLists := outRefs ++ [("inputs", [queueUid, netUid])] }
      ([dlhObj, queueObj, netObj], .ok (queueUid, .dlh uid))

/-- Lines 154-204: the loop over one group's contained items.  Each item
must cast to `DROStreamConf`; disabled streams are skipped (consuming no
port offset).  On success: the queue uids accumulated for the reader, the
DLH module references, and the port offset after the group. -/
def processStreams (dlhClass dlhConfObj : String) (tpQueueUid : Option String)
    (qDesc : Option QueueDescriptor) (nDesc : Option NetworkConnectionDescriptor) :
    List ResItem → Nat →
    List ConfRecord × Except GenError (List String × List ModuleRef × Nat)
  | [], offset => ([], .ok ([], [], offset))
  | r :: rest, offset =>
    match r.castDROStreamConf with
    | none =>
      ([], .error (.badConf "ReadoutGroup contains something other than DROStreamConf"))
    | some stream =>
      if stream.disabled then
        processStreams dlhClass dlhConfObj tpQueueUid qDesc nDesc rest offset
      else
        match buildStream dlhClass dlhConfObj tpQueueUid qDesc nDesc
            stream.get_src_id offset with
        | (recs, .error e) => (recs, .error e)
        | (recs, .ok (queueUid, m)) =>
          match processStreams dlhClass dlhConfObj tpQueueUid qDesc nDesc
              rest (offset + 1) with
          | (recs2, .error e) => (recs ++ recs2, .error e)
          | (recs2, .ok (qs, ms, off2)) =>
            (recs ++ recs2, .ok (queueUid :: qs, m :: ms, off2))

/-- Lines 139-220: the loop over the application's contained resource
sets.  A disabled group is skipped (its reader number does not advance);
an enabled one must cast to `ReadoutGroup`; its streams are processed and
then one DataReader record is created whose `outputs` reference list is
the group's accumulated queue uids. -/
def processGroups (appUid dlhClass dlhConfObj : String) (tpQueueUid : Option String)
    (qDesc : Option QueueDescriptor) (nDesc : Option NetworkConnectionDescriptor)
    (rdrConf : DataReaderConf) :
    List ContainedResource → Nat → Nat →
    List ConfRecord × Except GenError (List ModuleRef)
  | [], _, _ => ([], .ok [])
  | g :: rest, rnum, offset =>
    if g.disabled then
      processGroups appUid dlhClass dlhConfObj tpQueueUid qDesc nDesc rdrConf
        rest rnum offset
    else
      match g.castReadoutGroup with
      | none =>
        ([], .error (.badConf "ReadoutApplication contains something other than ReadoutGroup"))
      | some items =>
        match processStreams dlhClass dlhConfObj tpQueueUid qDesc nDesc
            items offset with
        | (recs, .error e) => (recs, .error e)
        | (recs, .ok (qUids, mods, off2)) =>
          let readerUid := "datareader-" ++ appUid ++ "-" ++ decStr rnum
          let readerObj : ConfRecord :=
            { className := rdrConf.template_for, uid := readerUid,
              vals := [],
              refs := [("configuration", rdrConf.config_object)],
              refLists := [("outputs", qUids)] }
          match processGroups appUid dlhClass dlhConfObj tpQueueUid qDesc nDesc
              rdrConf rest (rnum + 1) off2 with
          | (recs2, .error e) => (recs ++ readerObj :: recs2, .error e)
          | (recs2, .ok mods2) =>
            (recs ++ readerObj :: recs2,
             .ok (mods ++ .dataReader readerUid :: mods2))

/-- Lines 55-223: `ReadoutApplication::generate_modules`.  The first
component is the configuration store contents created by the call (which
persist even when the call aborts); the second is the returned module
vector, or the error that aborted the call (a `BadConf` throw or a null
pointer dereference). -/
def generate_modules (app : ReadoutApplication) :
    List ConfRecord × Except GenError (List ModuleRef) :=
  match app.link_handler with
  | none => ([], .error (.nullDeref "dlhConf"))
  | some dlhConf =>
    let dlhClass := dlhConf.template_for
    let qres := resolveQueueRules app.queue_rules dlhClass
    let nres := resolveNetworkRules app.network_rules dlhClass
    match tpStage app.tp_handler nres.2 qres.2 app.get_tp_src_id with
    | .error e => ([], .error e)
    | .ok (tpRecs, tpMods, tpQueueUid) =>
      match app.data_reader with
      | none => (tpRecs, .error (.badConf "No DataReader configuration given"))
      | some rdrConf =>
        match processGroups app.uid dlhClass dlhConf.config_object tpQueueUid
            qres.1 nres.1 rdrConf app.contains 0 0 with
        | (recs, .error e) => (tpRecs ++ recs, .error e)
        | (recs, .ok mods) => (tpRecs ++ recs, .ok (tpMods ++ mods))

/-! ### Correctness of the digit renderings -/

/-- Numeric value of a digit character (inverse of `digitCh` below 16). -/
def chVal (c : Char) : Nat :=
  if c.toNat ≥ 97 then c.toNat - 87 else c.toNat - 48

/-- Base-`b` value of a big-endian list of digit characters. -/
def chListVal (b : Nat) (cs : List Char) : Nat :=
  cs.foldl (fun a c => a * b + chVal c) 0

theorem chVal_digitCh {d : Nat} (h : d < 16) : chVal (digitCh d) = d := by
  interval_cases d <;> decide

theorem chListVal_append (b : Nat) (xs : List Char) (c : Char) :
    chListVal b (xs ++ [c]) = chListVal b xs * b + chVal c := by
  simp [chListVal, List.foldl_append]

theorem decDigits_val : ∀ fuel n, n < fuel →
    chListVal 10 (decDigits fuel n) = n := by
  intro fuel
  induction fuel with
  | zero => omega
  | succ fuel ih =>
    intro n hn
    rw [decDigits]
    by_cases h : n < 10
    · simp only [if_pos h]
      have : chVal (digitCh n) = n := chVal_digitCh (by omega)
      simp [chListVal, this]
    · simp only [if_neg h]
      rw [chListVal_append, ih (n / 10) (by omega),
        chVal_digitCh (show n % 10 < 16 by omega)]
      omega

theorem decStr_val (n : Nat) : chListVal 10 (decStr n).data = n :=
  decDigits_val (n + 1) n (Nat.lt_succ_self n)

theorem decStr_injective : Function.Injective decStr := by
  intro m n h
  have := congrArg (fun s => chListVal 10 (String.data s)) h
  simpa [decStr_val] using this

theorem hex8_length (n : Nat) : (hex8 n).length = 8 := by
  simp [hex8, String.length]

theorem hex8_chars {n : Nat} {c : Char} (hc : c ∈ (hex8 n).data) :
    c ∈ "0123456789abcdef".data := by
  simp only [hex8, String.mk, List.mem_map] at hc
  obtain ⟨i, _, rfl⟩ := hc
  have h16 : n / 16 ^ (7 - i) % 16 < 16 := Nat.mod_lt _ (by norm_num)
  set d := n / 16 ^ (7 - i) % 16 with hd
  interval_cases d <;> decide

theorem hex8_val {n : Nat} (h : n < 4294967296) :
    chListVal 16 (hex8 n).data = n := by
  have e : ∀ m : Nat, chVal (digitCh (m % 16)) = m % 16 :=
    fun m => chVal_digitCh (Nat.mod_lt _ (by norm_num))
  have hr : List.range 8 = [0, 1, 2, 3, 4, 5, 6, 7] := rfl
  simp only [hex8, hr, List.map_cons, List.map_nil, chListVal, List.foldl_cons,
    List.foldl_nil, e]
  norm_num
  omega

theorem hex8_injOn {m n : Nat} (hm : m < 4294967296) (hn : n < 4294967296)
    (h : hex8 m = hex8 n) : m = n := by
  have := congrArg (fun s => chListVal 16 (String.data s)) h
  simp only at this
  rw [hex8_val hm, hex8_val hn] at this
  exact this

/-! ### Characterization of the rule resolver -/

/-- The result a single overwrite scan leaves behind: the image under `f`
of the last element satisfying `p`, if any. -/
def lastHit {α β : Type} (p : α → Prop) [DecidablePred p] (f : α → β) :
    List α → Option β
  | [] => none
  | x :: xs =>
    match lastHit p f xs with
    | some y => some y
    | none => if p x then some (f x) else none

/-- A queue rule matches the link-handler role when its destination class
is the literal `"DLH"` or the handler template class. -/
def qMatchesDLH (dlhClass : String) (r : QueueConnectionRule) : Prop :=
  r.destination_class = "DLH" ∨ r.destination_class = dlhClass

instance (dlhClass : String) : DecidablePred (qMatchesDLH dlhClass) := by
  intro r; unfold qMatchesDLH; infer_instance

/-- A network rule matches the link-handler role when its endpoint class
is the literal `"DLH"` or the handler template class. -/
def nMatchesDLH (dlhClass : String) (r : NetworkConnectionRule) : Prop :=
  r.endpoint_class = "DLH" ∨ r.endpoint_class = dlhClass

instance (dlhClass : String) : DecidablePred (nMatchesDLH dlhClass) := by
  intro r; unfold nMatchesDLH; infer_instance

theorem resolveQueueRules_foldl_aux (dlhClass : String)
    (rules : List QueueConnectionRule) :
    ∀ init : Option QueueDescriptor × Option QueueDescriptor,
    rules.foldl
      (fun acc rule =>
        if rule.destination_class = "DLH" ∨ rule.destination_class = dlhClass then
          (some rule.descriptor, acc.2)
        else if rule.destination_class = "TPHandler" then
          (acc.1, some rule.descriptor)
        else acc)
      init =
    ((lastHit (qMatchesDLH dlhClass) (fun r => r.descriptor) rules).elim init.1 some,
     (lastHit (fun r => ¬ qMatchesDLH dlhClass r ∧ r.destination_class = "TPHandler")
        (fun r => r.descriptor) rules).elim init.2 some) := by
  induction rules with
  | nil => intro init; simp [lastHit]
  | cons r rest ih =>
    intro init
    simp only [List.foldl_cons]
    by_cases h1 : r.destination_class = "DLH" ∨ r.destination_class = dlhClass
    · rw [if_pos h1, ih]
      have hp : qMatchesDLH dlhClass r := h1
      have hq : ¬(¬ qMatchesDLH dlhClass r ∧ r.destination_class = "TPHandler") :=
        fun h => h.1 hp
      simp only [lastHit, Prod.mk.injEq]
      constructor
      · cases hA : lastHit (qMatchesDLH dlhClass) (fun r => r.descriptor) rest <;>
          simp [hA, hp]
      · cases hB : lastHit
            (fun r => ¬ qMatchesDLH dlhClass r ∧ r.destination_class = "TPHandler")
            (fun r => r.descriptor) rest <;>
          simp [hB, hq]
    · rw [if_neg h1]
      have hp : ¬ qMatchesDLH dlhClass r := h1
      by_cases h3 : r.destination_class = "TPHandler"
      · rw [if_pos h3, ih]
        have hq : ¬ qMatchesDLH dlhClass r ∧ r.destination_class = "TPHandler" :=
          ⟨hp, h3⟩
        simp only [lastHit, Prod.mk.injEq]
        constructor
        · cases hA : lastHit (qMatchesDLH dlhClass) (fun r => r.descriptor) rest <;>
            simp [hA, hp]
        · cases hB : lastHit
              (fun r => ¬ qMatchesDLH dlhClass r ∧ r.destination_class = "TPHandler")
              (fun r => r.descriptor) rest <;>
            simp [hB, hq]
      · rw [if_neg h3, ih]
        have hq : ¬(¬ qMatchesDLH dlhClass r ∧ r.destination_class = "TPHandler") :=
          fun h => h3 h.2
        simp only [lastHit, Prod.mk.injEq]
        constructor
        · cases hA : lastHit (qMatchesDLH dlhClass) (fun r => r.descriptor) rest <;>
            simp [hA, hp]
        · cases hB : lastHit
              (fun r => ¬ qMatchesDLH dlhClass r ∧ r.destination_class = "TPHandler")
              (fun r => r.descriptor) rest <;>
            simp [hB, hq]

theorem resolveQueueRules_eq (rules : List QueueConnectionRule) (dlhClass : String) :
    resolveQueueRules rules dlhClass =
      (lastHit (qMatchesDLH dlhClass) (fun r => r.descriptor) rules,
       lastHit (fun r => ¬ qMatchesDLH dlhClass r ∧ r.destination_class = "TPHandler")
         (fun r => r.descriptor) rules) := by
  unfold resolveQueueRules
  rw [resolveQueueRules_foldl_aux]
  cases hA : lastHit (qMatchesDLH dlhClass) (fun r => r.descriptor) rules <;>
    cases hB : lastHit
      (fun r => ¬ qMatchesDLH dlhClass r ∧ r.destination_class = "TPHandler")
      (fun r => r.descriptor) rules <;>
    simp [hA, hB]

theorem resolveNetworkRules_foldl_aux (dlhClass : String)
    (rules : List NetworkConnectionRule) :
    ∀ init : Option NetworkConnectionDescriptor × Option NetworkConnectionDescriptor,
    rules.foldl
      (fun acc rule =>
        if rule.endpoint_class = "DLH" ∨ rule.endpoint_class = dlhClass then
          (some rule.descriptor, acc.2)
        else if rule.endpoint_class = "TPHandler" then
          (acc.1, some rule.descriptor)
        else acc)
      init =
    ((lastHit (nMatchesDLH dlhClass) (fun r => r.descriptor) rules).elim init.1 some,
     (lastHit (fun r => ¬ nMatchesDLH dlhClass r ∧ r.endpoint_class = "TPHandler")
        (fun r => r.descriptor) rules).elim init.2 some) := by
  induction rules with
  | nil => intro init; simp [lastHit]
  | cons r rest ih =>
    intro init
    simp only [List.foldl_cons]
    by_cases h1 : r.endpoint_class = "DLH" ∨ r.endpoint_class = dlhClass
    · rw [if_pos h1, ih]
      have hp : nMatchesDLH dlhClass r := h1
      have hq : ¬(¬ nMatchesDLH dlhClass r ∧ r.endpoint_class = "TPHandler") :=
        fun h => h.1 hp
      simp only [lastHit, Prod.mk.injEq]
      constructor
      · cases hA : lastHit (nMatchesDLH dlhClass) (fun r => r.descriptor) rest <;>
          simp [hA, hp]
      · cases hB : lastHit
            (fun r => ¬ nMatchesDLH dlhClass r ∧ r.endpoint_class = "TPHandler")
            (fun r => r.descriptor) rest <;>
          simp [hB, hq]
    · rw [if_neg h1]
      have hp : ¬ nMatchesDLH dlhClass r := h1
      by_cases h3 : r.endpoint_class = "TPHandler"
      · rw [if_pos h3, ih]
        have hq : ¬ nMatchesDLH dlhClass r ∧ r.endpoint_class = "TPHandler" :=
          ⟨hp, h3⟩
        simp only [lastHit, Prod.mk.injEq]
        constructor
        · cases hA : lastHit (nMatchesDLH dlhClass) (fun r => r.descriptor) rest <;>
            simp [hA, hp]
        · cases hB : lastHit
              (fun r => ¬ nMatchesDLH dlhClass r ∧ r.endpoint_class = "TPHandler")
              (fun r => r.descriptor) rest <;>
            simp [hB, hq]
      · rw [if_neg h3, ih]
        have hq : ¬(¬ nMatchesDLH dlhClass r ∧ r.endpoint_class = "TPHandler") :=
          fun h => h3 h.2
        simp only [lastHit, Prod.mk.injEq]
        constructor
        · cases hA : lastHit (nMatchesDLH dlhClass) (fun r => r.descriptor) rest <;>
            simp [hA, hp]
        · cases hB : lastHit
              (fun r => ¬ nMatchesDLH dlhClass r ∧ r.endpoint_class = "TPHandler")
              (fun r => r.descriptor) rest <;>
            simp [hB, hq]

theorem resolveNetworkRules_eq (rules : List NetworkConnectionRule) (dlhClass : String) :
    resolveNetworkRules rules dlhClass =
      (lastHit (nMatchesDLH dlhClass) (fun r => r.descriptor) rules,
       lastHit (fun r => ¬ nMatchesDLH dlhClass r ∧ r.endpoint_class = "TPHandler")
         (fun r => r.descriptor) rules) := by
  unfold resolveNetworkRules
  rw [resolveNetworkRules_foldl_aux]
  cases hA : lastHit (nMatchesDLH dlhClass) (fun r => r.descriptor) rules <;>
    cases hB : lastHit
      (fun r => ¬ nMatchesDLH dlhClass r ∧ r.endpoint_class = "TPHandler")
      (fun r => r.descriptor) rules <;>
    simp [hA, hB]

/-- Unfolding of `generate_modules` once the link-handler template is known
to be present. -/
theorem generate_modules_some (app : ReadoutApplication)
    (dlhConf : LinkHandlerConf) (lh : app.link_handler = some dlhConf) :
    generate_modules app =
      match tpStage app.tp_handler
          (resolveNetworkRules app.network_rules dlhConf.template_for).2
          (resolveQueueRules app.queue_rules dlhConf.template_for).2
          app.get_tp_src_id with
      | .error e => ([], .error e)
      | .ok (tpRecs, tpMods, tpQueueUid) =>
        match app.data_reader with
        | none => (tpRecs, .error (.badConf "No DataReader configuration given"))
        | some rdrConf =>
          match processGroups app.uid dlhConf.template_for dlhConf.config_object
              tpQueueUid
              (resolveQueueRules app.queue_rules dlhConf.template_for).1
              (resolveNetworkRules app.network_rules dlhConf.template_for).1
              rdrConf app.contains 0 0 with
          | (recs, .error e) => (tpRecs ++ recs, .error e)
          | (recs, .ok mods) => (tpRecs ++ recs, .ok (tpMods ++ mods)) := by
  unfold generate_modules
  rw [lh]

/-! ### Fixtures for concrete evaluations -/

def qdA : QueueDescriptor :=
  { data_type := "fragments", queue_type := "kFollySPSC", capacity := 100 }

def ndA : NetworkConnectionDescriptor :=
  { data_type := "fragments", connection_type := "kSendRecv",
    uri := "tcp://host", port := 14000, uid_base := "tp_conn_" }

def lhA : LinkHandlerConf :=
  { template_for := "DataLinkHandler", config_object := "lhconf" }

def rdA : DataReaderConf :=
  { template_for := "FelixReader", config_object := "rdconf" }

/-- An application whose link-handler template relationship is unset. -/
def appNoHandlerTemplate : ReadoutApplication :=
  { uid := "ru", link_handler := none, tp_handler := none, tp_src_id := 0,
    data_reader := some rdA, queue_rules := [⟨"DLH", qdA⟩],
    network_rules := [⟨"DLH", ndA⟩], contains := [] }

/-- An application whose data-reader template relationship is unset. -/
def appNoReaderTemplate : ReadoutApplication :=
  { uid := "ru", link_handler := some lhA, tp_handler := none, tp_src_id := 0,
    data_reader := none, queue_rules := [⟨"DLH", qdA⟩],
    network_rules := [⟨"DLH", ndA⟩], contains := [] }

/-- A TP-handler config present but no network rule matching `"TPHandler"`. -/
def appTPnoNet : ReadoutApplication :=
  { uid := "ru", link_handler := some lhA, tp_handler := some ⟨"tpconf"⟩,
    tp_src_id := 7, data_reader := some rdA, queue_rules := [⟨"TPHandler", qdA⟩],
    network_rules := [⟨"DLH", ndA⟩], contains := [] }

/-- A TP-handler config present with both descriptors but a zero source id. -/
def appTPzeroSrc : ReadoutApplication :=
  { uid := "ru", link_handler := some lhA, tp_handler := some ⟨"tpconf"⟩,
    tp_src_id := 0, data_reader := some rdA, queue_rules := [⟨"TPHandler", qdA⟩],
    network_rules := [⟨"TPHandler", ndA⟩], contains := [] }

/-! ### Claim theorems: C5, C2, C4 -/

/-- **C5 counterexample.**  The claim says the resolver selects as
TP-handler descriptor the descriptor of a rule whose consumer class equals
the literal `"TPHandler"`.  When the handler template class itself is
`"TPHandler"`, the single rule with destination class `"TPHandler"`
matches the link-handler test first (`destination_class == dlhClass`) and
the `else if` never runs: the TP slot stays unset even though a matching
rule exists, contradicting the claim. -/
theorem resolver_tp_shadowed_counterexample :
    (resolveQueueRules [⟨"TPHandler", ⟨"dt", "qt", 10⟩⟩] "TPHandler").2 = none ∧
    lastHit (fun r => r.destination_class = "TPHandler") (fun r => r.descriptor)
      ([⟨"TPHandler", ⟨"dt", "qt", 10⟩⟩] : List QueueConnectionRule) =
      some ⟨"dt", "qt", 10⟩ ∧
    (none : Option QueueDescriptor) ≠ some ⟨"dt", "qt", 10⟩ := by
  refine ⟨rfl, rfl, by decide⟩

/-- **C5 (amended).**  The resolver's link-handler descriptor is the
descriptor of the last rule in scan order whose consumer class equals the
literal `"DLH"` or the handler template class; its TP-handler descriptor
is the descriptor of the last rule whose consumer class equals the literal
`"TPHandler"` *and does not match the link-handler role* (the link-handler
test is checked first and shadows the TP test).  The scans are total: no
duplicate-rule error is ever raised, later matches simply overwrite
earlier ones. -/
theorem resolver_last_match_wins (qrules : List QueueConnectionRule)
    (nrules : List NetworkConnectionRule) (dlhClass : String) :
    resolveQueueRules qrules dlhClass =
      (lastHit (qMatchesDLH dlhClass) (fun r => r.descriptor) qrules,
       lastHit (fun r => ¬ qMatchesDLH dlhClass r ∧ r.destination_class = "TPHandler")
         (fun r => r.descriptor) qrules) ∧
    resolveNetworkRules nrules dlhClass =
      (lastHit (nMatchesDLH dlhClass) (fun r => r.descriptor) nrules,
       lastHit (fun r => ¬ nMatchesDLH dlhClass r ∧ r.endpoint_class = "TPHandler")
         (fun r => r.descriptor) nrules) :=
  ⟨resolveQueueRules_eq qrules dlhClass, resolveNetworkRules_eq nrules dlhClass⟩

/-- **C2 (code bug).**  When the data-reader template is absent the code
throws `BadConf` ("No DataReader configuration given"), as claimed.  But
when the link-handler template is absent, `get_link_handler()` returns a
null pointer that line 64 dereferences without any check: the call crashes
instead of raising a `MissingConfiguration` error.  In both cases no
module record is returned. -/
theorem missing_template_behavior :
    generate_modules appNoHandlerTemplate =
      ([], .error (.nullDeref "dlhConf")) ∧
    (∀ msg, (GenError.nullDeref "dlhConf") ≠ .badConf msg) ∧
    generate_modules appNoReaderTemplate =
      ([], .error (.badConf "No DataReader configuration given")) :=
  ⟨rfl, fun _ h => GenError.noConfusion h, rfl⟩

/-- **C4.**  With a TP-handler config present: a missing network
descriptor, a missing queue descriptor and a zero source id each raise a
distinct fatal `BadConf`, in that order, each with the store still empty
(no TP record created); when all three preconditions hold the TP stage
creates exactly one Queue record `inputToTPH-<src>`, one Network record
`ReqToTPH-<src>` and one TPHandler record `tphandler-<src>` whose `inputs`
are that queue and network and whose `handler_configuration` is the
config reference, and these are the first records in the store; with no
TP-handler config the stage creates nothing and raises nothing. -/
theorem tp_handler_stage_spec (app : ReadoutApplication)
    (dlhConf : LinkHandlerConf) (lh : app.link_handler = some dlhConf) :
    (∀ c, app.tp_handler = some c →
      (resolveNetworkRules app.network_rules dlhConf.template_for).2 = none →
      generate_modules app =
        ([], .error (.badConf "No tpHandler network descriptor given"))) ∧
    (∀ c nd, app.tp_handler = some c →
      (resolveNetworkRules app.network_rules dlhConf.template_for).2 = some nd →
      (resolveQueueRules app.queue_rules dlhConf.template_for).2 = none →
      generate_modules app =
        ([], .error (.badConf "No tpHandler input queue descriptor given"))) ∧
    (∀ c nd qd, app.tp_handler = some c →
      (resolveNetworkRules app.network_rules dlhConf.template_for).2 = some nd →
      (resolveQueueRules app.queue_rules dlhConf.template_for).2 = some qd →
      app.get_tp_src_id = 0 →
      generate_modules app =
        ([], .error (.badConf "No TPHandler src_id given"))) ∧
    (∀ c nd qd, app.tp_handler = some c →
      (resolveNetworkRules app.network_rules dlhConf.template_for).2 = some nd →
      (resolveQueueRules app.queue_rules dlhConf.template_for).2 = some qd →
      app.get_tp_src_id ≠ 0 →
      tpStage app.tp_handler
          (resolveNetworkRules app.network_rules dlhConf.template_for).2
          (resolveQueueRules app.queue_rules dlhConf.template_for).2
          app.get_tp_src_id =
        .ok ([⟨"Queue", "inputToTPH-" ++ decStr app.get_tp_src_id,
               [("data_type", .str qd.data_type), ("queue_type", .str qd.queue_type),
                ("capacity", .nat qd.get_capacity)], [], []⟩,
              ⟨"NetworkConnection", "ReqToTPH-" ++ decStr app.get_tp_src_id,
               [("data_type", .str nd.data_type),
                ("connection_type", .str nd.connection_type),
                ("uri", .str nd.uri), ("port", .nat nd.get_port)], [], []⟩,
              ⟨"TPHandler", "tphandler-" ++ decStr app.get_tp_src_id,
               [("source_id", .nat app.get_tp_src_id)],
               [("handler_configuration", c.config_object)],
               [("inputs", ["inputToTPH-" ++ decStr app.get_tp_src_id,
                            "ReqToTPH-" ++ decStr app.get_tp_src_id])]⟩],
             [.tpHandler ("tphandler-" ++ decStr app.get_tp_src_id)],
             some ("inputToTPH-" ++ decStr app.get_tp_src_id)) ∧
      ∃ rest, (generate_modules app).1 =
        ⟨"Queue", "inputToTPH-" ++ decStr app.get_tp_src_id,
         [("data_type", .str qd.data_type), ("queue_type", .str qd.queue_type),
          ("capacity", .nat qd.get_capacity)], [], []⟩ ::
        ⟨"NetworkConnection", "ReqToTPH-" ++ decStr app.get_tp_src_id,
         [("data_type", .str nd.data_type),
          ("connection_type", .str nd.connection_type),
          ("uri", .str nd.uri), ("port", .nat nd.get_port)], [], []⟩ ::
        ⟨"TPHandler", "tphandler-" ++ decStr app.get_tp_src_id,
         [("source_id", .nat app.get_tp_src_id)],
         [("handler_configuration", c.config_object)],
         [("inputs", ["inputToTPH-" ++ decStr app.get_tp_src_id,
                      "ReqToTPH-" ++ decStr app.get_tp_src_id])]⟩ :: rest) ∧
    (app.tp_handler = none →
      tpStage app.tp_handler
          (resolveNetworkRules app.network_rules dlhConf.template_for).2
          (resolveQueueRules app.queue_rules dlhConf.template_for).2
          app.get_tp_src_id = .ok ([], [], none)) := by
  refine ⟨?_, ?_, ?_, ?_, ?_⟩
  · intro c htp hnet
    rw [generate_modules_some app dlhConf lh]
    simp [tpStage, htp, hnet]
  · intro c nd htp hnet hq
    rw [generate_modules_some app dlhConf lh]
    simp [tpStage, htp, hnet, hq]
  · intro c nd qd htp hnet hq h0
    rw [generate_modules_some app dlhConf lh]
    simp [tpStage, htp, hnet, hq, h0]
  · intro c nd qd htp hnet hq h0
    have hstage : tpStage app.tp_handler
        (resolveNetworkRules app.network_rules dlhConf.template_for).2
        (resolveQueueRules app.queue_rules dlhConf.template_for).2
        app.get_tp_src_id =
        .ok ([⟨"Queue", "inputToTPH-" ++ decStr app.get_tp_src_id,
               [("data_type", .str qd.data_type), ("queue_type", .str qd.queue_type),
                ("capacity", .nat qd.get_capacity)], [], []⟩,
              ⟨"NetworkConnection", "ReqToTPH-" ++ decStr app.get_tp_src_id,
               [("data_type", .str nd.data_type),
                ("connection_type", .str nd.connection_type),
                ("uri", .str nd.uri), ("port", .nat nd.get_port)], [], []⟩,
              ⟨"TPHandler", "tphandler-" ++ decStr app.get_tp_src_id,
               [("source_id", .nat app.get_tp_src_id)],
               [("handler_configuration", c.config_object)],
               [("inputs", ["inputToTPH-" ++ decStr app.get_tp_src_id,
                            "ReqToTPH-" ++ decStr app.get_tp_src_id])]⟩],
             [.tpHandler ("tphandler-" ++ decStr app.get_tp_src_id)],
             some ("inputToTPH-" ++ decStr app.get_tp_src_id)) := by
      simp [tpStage, htp, hnet, hq, h0]
    refine ⟨hstage, ?_⟩
    rw [generate_modules_some app dlhConf lh, hstage]
    cases hdr : app.data_reader with
    | none => exact ⟨[], rfl⟩
    | some rdrConf =>
      cases hpg : processGroups app.uid dlhConf.template_for dlhConf.config_object
          (some ("inputToTPH-" ++ decStr app.get_tp_src_id))
          (resolveQueueRules app.queue_rules dlhConf.template_for).1
          (resolveNetworkRules app.network_rules dlhConf.template_for).1
          rdrConf app.contains 0 0 with
      | mk recs res =>
        cases res with
        | error e => exact ⟨recs, by simp [hpg]⟩
        | ok mods => exact ⟨recs, by simp [hpg]⟩
  · intro htp
    simp [tpStage, htp]

/-- Witness for `tp_handler_stage_spec`: concrete applications hitting the
missing-network-descriptor and zero-source-id errors. -/
theorem tp_handler_stage_spec_witness :
    generate_modules appTPnoNet =
      ([], .error (.badConf "No tpHandler network descriptor given")) ∧
    generate_modules appTPzeroSrc =
      ([], .error (.badConf "No TPHandler src_id given")) :=
  ⟨(tp_handler_stage_spec appTPnoNet lhA rfl).1 ⟨"tpconf"⟩ rfl rfl,
   (tp_handler_stage_spec appTPzeroSrc lhA rfl).2.2.1 ⟨"tpconf"⟩ ndA qdA
     rfl rfl rfl rfl⟩

/-! ### Closed forms for the successful path -/

/-- The `uint32` source ids of a group's enabled streams, in declaration
order (disabled streams and the items a failed cast would reject do not
appear; on a successful run every item casts). -/
def enabledStreamIds (items : List ResItem) : List Nat :=
  items.filterMap (fun r =>
    match r.castDROStreamConf with
    | some s => if s.disabled then none else some s.get_src_id
    | none => none)

/-- Per processed group, the enabled stream ids: enabled groups that cast
to `ReadoutGroup`, in declaration order. -/
def processedGroupIds (groups : List ContainedResource) : List (List Nat) :=
  groups.filterMap (fun g =>
    if g.disabled then none
    else
      match g.castReadoutGroup with
      | some items => some (enabledStreamIds items)
      | none => none)

/-- The store records the stream loop leaves for a list of enabled stream
ids starting at a given port offset. -/
def streamsClosed (dlhClass dlhConfObj : String) (tpQueueUid : Option String)
    (qDesc : Option QueueDescriptor) (nDesc : Option NetworkConnectionDescriptor) :
    List Nat → Nat → List ConfRecord
  | [], _ => []
  | id :: rest, offset =>
    (buildStream dlhClass dlhConfObj tpQueueUid qDesc nDesc id offset).1
      ++ streamsClosed dlhClass dlhConfObj tpQueueUid qDesc nDesc rest (offset + 1)

/-- The DataReader record created for the group with index `rnum` whose
enabled stream ids are `ids`. -/
def readerRecord (appUid : String) (rdrConf : DataReaderConf) (rnum : Nat)
    (ids : List Nat) : ConfRecord :=
  { className := rdrConf.template_for,
    uid := "datareader-" ++ appUid ++ "-" ++ decStr rnum,
    vals := [],
    refs := [("configuration", rdrConf.config_object)],
    refLists := [("outputs", ids.map (fun id => "inputToDLH-" ++ decStr id))] }

/-- The store records the group loop leaves for the per-group enabled
stream ids, starting at reader number `rnum` and port offset `offset`. -/
def groupsClosedStore (appUid dlhClass dlhConfObj : String)
    (tpQueueUid : Option String) (qDesc : Option QueueDescriptor)
    (nDesc : Option NetworkConnectionDescriptor) (rdrConf : DataReaderConf) :
    List (List Nat) → Nat → Nat → List ConfRecord
  | [], _, _ => []
  | ids :: rest, rnum, offset =>
    streamsClosed dlhClass dlhConfObj tpQueueUid qDesc nDesc ids offset
      ++ readerRecord appUid rdrConf rnum ids
      :: groupsClosedStore appUid dlhClass dlhConfObj tpQueueUid qDesc nDesc rdrConf
           rest (rnum + 1) (offset + ids.length)

/-- The module references returned by the group loop. -/
def groupsClosedMods (appUid : String) : List (List Nat) → Nat → List ModuleRef
  | [], _ => []
  | ids :: rest, rnum =>
    ids.map (fun id => ModuleRef.dlh ("DLH-" ++ decStr id))
      ++ ModuleRef.dataReader ("datareader-" ++ appUid ++ "-" ++ decStr rnum)
      :: groupsClosedMods appUid rest (rnum + 1)

/-- The value of a record's `"port"` field, when it has one. -/
def portVal (r : ConfRecord) : Option Nat :=
  match r.vals.lookup "port" with
  | some (.nat n) => some n
  | _ => none

/-- The ports of the records carrying a `"port"` field, in creation order. -/
def portsOf (st : List ConfRecord) : List Nat :=
  st.filterMap portVal

theorem processStreams_ok (dlhClass dlhConfObj : String) (tpQueueUid : Option String)
    (qDesc : Option QueueDescriptor) (nDesc : Option NetworkConnectionDescriptor) :
    ∀ (items : List ResItem) (offset : Nat) (recs : List ConfRecord)
      (qs : List String) (ms : List ModuleRef) (off2 : Nat),
    processStreams dlhClass dlhConfObj tpQueueUid qDesc nDesc items offset =
      (recs, .ok (qs, ms, off2)) →
    recs = streamsClosed dlhClass dlhConfObj tpQueueUid qDesc nDesc
      (enabledStreamIds items) offset ∧
    qs = (enabledStreamIds items).map (fun id => "inputToDLH-" ++ decStr id) ∧
    ms = (enabledStreamIds items).map (fun id => ModuleRef.dlh ("DLH-" ++ decStr id)) ∧
    off2 = offset + (enabledStreamIds items).length ∧
    (enabledStreamIds items ≠ [] →
      ∃ qd nd, qDesc = some qd ∧ nDesc = some nd) := by
  intro items
  induction items with
  | nil =>
    intro offset recs qs ms off2 h
    simp only [processStreams, Prod.mk.injEq, Except.ok.injEq] at h
    obtain ⟨h1, h2, h3, h4⟩ := h
    subst h1 h2 h3 h4
    simp [enabledStreamIds, streamsClosed]
  | cons r rest ih =>
    intro offset recs qs ms off2 h
    cases hc : r.castDROStreamConf with
    | none =>
      rw [processStreams, hc] at h
      simp at h
    | some stream =>
      rw [processStreams, hc] at h
      cases hdis : stream.disabled with
      | true =>
        simp only [hdis, eq_self_iff_true, if_true] at h
        have := ih offset recs qs ms off2 h
        simpa [enabledStreamIds, List.filterMap_cons, hc, hdis] using this
      | false =>
        simp only [hdis, Bool.false_eq_true, if_false] at h
        cases hq : qDesc with
        | none =>
          subst hq
          simp only [buildStream] at h
          simp at h
        | some qd =>
          subst hq
          cases hn : nDesc with
          | none =>
            subst hn
            simp only [buildStream] at h
            simp at h
          | some nd =>
            subst hn
            simp only [buildStream] at h
            cases hrec : processStreams dlhClass dlhConfObj tpQueueUid
                (some qd) (some nd) rest (offset + 1) with
            | mk recs2 res2 =>
              rw [hrec] at h
              cases res2 with
              | error e => simp at h
              | ok triple =>
                obtain ⟨qs2, ms2, offEnd⟩ := triple
                simp only [Prod.mk.injEq, Except.ok.injEq] at h
                obtain ⟨hrecs, hqs, hms, hoff⟩ := h
                have ihh := ih (offset + 1) recs2 qs2 ms2 offEnd (by rw [hrec])
                obtain ⟨ih1, ih2, ih3, ih4, _⟩ := ihh
                refine ⟨?_, ?_, ?_, ?_, fun _ => ⟨qd, nd, rfl, rfl⟩⟩
                · subst hrecs ih1
                  simp [enabledStreamIds, List.filterMap_cons, hc, hdis,
                    streamsClosed, buildStream]
                · subst hqs ih2
                  simp [enabledStreamIds, List.filterMap_cons, hc, hdis]
                · subst hms ih3
                  simp [enabledStreamIds, List.filterMap_cons, hc, hdis]
                · subst hoff ih4
                  simp [enabledStreamIds, List.filterMap_cons, hc, hdis]
                  omega

theorem processGroups_ok (appUid dlhClass dlhConfObj : String)
    (tpQueueUid : Option String) (qDesc : Option QueueDescriptor)
    (nDesc : Option NetworkConnectionDescriptor) (rdrConf : DataReaderConf) :
    ∀ (groups : List ContainedResource) (rnum offset : Nat)
      (recs : List ConfRecord) (mods : List ModuleRef),
    processGroups appUid dlhClass dlhConfObj tpQueueUid qDesc nDesc rdrConf
      groups rnum offset = (recs, .ok mods) →
    recs = groupsClosedStore appUid dlhClass dlhConfObj tpQueueUid qDesc nDesc rdrConf
      (processedGroupIds groups) rnum offset ∧
    mods = groupsClosedMods appUid (processedGroupIds groups) rnum ∧
    ((processedGroupIds groups).flatten ≠ [] →
      ∃ qd nd, qDesc = some qd ∧ nDesc = some nd) := by
  intro groups
  induction groups with
  | nil =>
    intro rnum offset recs mods h
    simp only [processGroups, Prod.mk.injEq, Except.ok.injEq] at h
    obtain ⟨h1, h2⟩ := h
    subst h1 h2
    simp [processedGroupIds, groupsClosedStore, groupsClosedMods]
  | cons g rest ih =>
    intro rnum offset recs mods h
    cases hdis : g.disabled with
    | true =>
      rw [processGroups] at h
      simp only [hdis, eq_self_iff_true, if_true] at h
      have := ih rnum offset recs mods h
      simpa [processedGroupIds, List.filterMap_cons, hdis] using this
    | false =>
      rw [processGroups] at h
      simp only [hdis, Bool.false_eq_true, if_false] at h
      cases hg : g.castReadoutGroup with
      | none =>
        rw [hg] at h
        simp at h
      | some items =>
        rw [hg] at h
        simp only [] at h
        cases hps : processStreams dlhClass dlhConfObj tpQueueUid qDesc nDesc
            items offset with
        | mk recsS resS =>
          rw [hps] at h
          cases resS with
          | error e => simp at h
          | ok triple =>
            obtain ⟨qUids, modsS, off2⟩ := triple
            simp only [] at h
            obtain ⟨hs1, hs2, hs3, hs4, hs5⟩ :=
              processStreams_ok dlhClass dlhConfObj tpQueueUid qDesc nDesc
                items offset recsS qUids modsS off2 hps
            cases hpg : processGroups appUid dlhClass dlhConfObj tpQueueUid
                qDesc nDesc rdrConf rest (rnum + 1) off2 with
            | mk recs2 res2 =>
              rw [hpg] at h
              cases res2 with
              | error e => simp at h
              | ok mods2 =>
                simp only [Prod.mk.injEq, Except.ok.injEq] at h
                obtain ⟨hrecs, hmods⟩ := h
                obtain ⟨ih1, ih2, ih3⟩ := ih (rnum + 1) off2 recs2 mods2 (by rw [hpg])
                refine ⟨?_, ?_, ?_⟩
                · subst hrecs ih1 hs1 hs2 hs4
                  simp [processedGroupIds, List.filterMap_cons, hdis, hg,
                    groupsClosedStore, readerRecord]
                · subst hmods ih2 hs3
                  simp [processedGroupIds, List.filterMap_cons, hdis, hg,
                    groupsClosedMods]
                · intro hne
                  by_cases hids : enabledStreamIds items = []
                  · refine ih3 ?_
                    intro hflat
                    apply hne
                    have hcons : processedGroupIds (g :: rest) =
                        enabledStreamIds items :: processedGroupIds rest := by
                      simp [processedGroupIds, List.filterMap_cons, hdis, hg]
                    rw [hcons, List.flatten_cons, hids, hflat]
                    rfl
                  · exact hs5 hids

/-- Any successful run of `generate_modules` is described by the closed
forms: both templates are present, the TP stage succeeded, the store is
the TP records followed by the group-loop records, and the returned
modules are the TP modules followed by the group-loop modules. -/
theorem generate_modules_ok (app : ReadoutApplication) (st : List ConfRecord)
    (mods : List ModuleRef) (h : generate_modules app = (st, .ok mods)) :
    ∃ dlhConf rdrConf tpRecs tpMods tpQueueUid,
      app.link_handler = some dlhConf ∧ app.data_reader = some rdrConf ∧
      tpStage app.tp_handler
        (resolveNetworkRules app.network_rules dlhConf.template_for).2
        (resolveQueueRules app.queue_rules dlhConf.template_for).2
        app.get_tp_src_id = .ok (tpRecs, tpMods, tpQueueUid) ∧
      st = tpRecs ++ groupsClosedStore app.uid dlhConf.template_for
        dlhConf.config_object tpQueueUid
        (resolveQueueRules app.queue_rules dlhConf.template_for).1
        (resolveNetworkRules app.network_rules dlhConf.template_for).1
        rdrConf (processedGroupIds app.contains) 0 0 ∧
      mods = tpMods ++ groupsClosedMods app.uid (processedGroupIds app.contains) 0 ∧
      ((processedGroupIds app.contains).flatten ≠ [] →
        ∃ qd nd,
          (resolveQueueRules app.queue_rules dlhConf.template_for).1 = some qd ∧
          (resolveNetworkRules app.network_rules dlhConf.template_for).1 = some nd) := by
  cases lh : app.link_handler with
  | none =>
    rw [generate_modules, lh] at h
    simp at h
  | some dlhConf =>
    rw [generate_modules_some app dlhConf lh] at h
    cases hstage : tpStage app.tp_handler
        (resolveNetworkRules app.network_rules dlhConf.template_for).2
        (resolveQueueRules app.queue_rules dlhConf.template_for).2
        app.get_tp_src_id with
    | error e => rw [hstage] at h; simp at h
    | ok tpTriple =>
      obtain ⟨tpRecs, tpMods, tpQueueUid⟩ := tpTriple
      rw [hstage] at h
      cases hdr : app.data_reader with
      | none => rw [hdr] at h; simp at h
      | some rdrConf =>
        rw [hdr] at h
        simp only [] at h
        cases hpg : processGroups app.uid dlhConf.template_for dlhConf.config_object
            tpQueueUid
            (resolveQueueRules app.queue_rules dlhConf.template_for).1
            (resolveNetworkRules app.network_rules dlhConf.template_for).1
            rdrConf app.contains 0 0 with
        | mk recs res =>
          rw [hpg] at h
          cases res with
          | error e => simp at h
          | ok gmods =>
            simp only [Prod.mk.injEq, Except.ok.injEq] at h
            obtain ⟨h1, h2⟩ := h
            obtain ⟨hg1, hg2, hg3⟩ :=
              processGroups_ok app.uid dlhConf.template_for dlhConf.config_object
                tpQueueUid
                (resolveQueueRules app.queue_rules dlhConf.template_for).1
                (resolveNetworkRules app.network_rules dlhConf.template_for).1
                rdrConf app.contains 0 0 recs gmods (by rw [hpg])
            exact ⟨dlhConf, rdrConf, tpRecs, tpMods, tpQueueUid, rfl, rfl, hstage,
              by rw [← h1, hg1], by rw [← h2, hg2], hg3⟩

/-- Shape of a successful TP stage: either no config was present and
nothing was created, or everything was present and exactly the three TP
records and the one TP module reference came out.  Every created record's
single-reference list is empty or a `handler_configuration` entry. -/
theorem tpStage_ok_shape (tpConf : Option TPHandlerConf)
    (ndo : Option NetworkConnectionDescriptor) (qdo : Option QueueDescriptor)
    (src : Nat) (recs : List ConfRecord) (ms : List ModuleRef) (q : Option String)
    (h : tpStage tpConf ndo qdo src = .ok (recs, ms, q)) :
    (∀ r ∈ recs, r.refs = [] ∨ ∃ o, r.refs = [("handler_configuration", o)]) ∧
    ((tpConf = none ∧ recs = [] ∧ ms = [] ∧ q = none) ∨
     (∃ c nd qd, tpConf = some c ∧ ndo = some nd ∧ qdo = some qd ∧ src ≠ 0 ∧
       ms = [.tpHandler ("tphandler-" ++ decStr src)] ∧
       q = some ("inputToTPH-" ++ decStr src) ∧ recs.length = 3)) := by
  cases tpConf with
  | none =>
    simp only [tpStage, Except.ok.injEq, Prod.mk.injEq] at h
    obtain ⟨h1, h2, h3⟩ := h
    subst h1 h2 h3
    exact ⟨by simp, Or.inl ⟨rfl, rfl, rfl, rfl⟩⟩
  | some c =>
    cases ndo with
    | none => simp [tpStage] at h
    | some nd =>
      cases qdo with
      | none => simp [tpStage] at h
      | some qd =>
        by_cases h0 : src = 0
        · simp [tpStage, h0] at h
        · simp only [tpStage, h0, if_false, Except.ok.injEq, Prod.mk.injEq] at h
          obtain ⟨h1, h2, h3⟩ := h
          subst h1 h2 h3
          constructor
          · intro r hr
            simp only [List.mem_cons, List.mem_singleton] at hr
            rcases hr with rfl | rfl | rfl | hr
            · exact Or.inl rfl
            · exact Or.inl rfl
            · exact Or.inr ⟨c.config_object, rfl⟩
            · cases hr
          · exact Or.inr ⟨c, nd, qd, rfl, rfl, rfl, h0, rfl, rfl, rfl⟩

theorem groupsClosedMods_length (appUid : String) :
    ∀ (gss : List (List Nat)) (rnum : Nat),
    (groupsClosedMods appUid gss rnum).length = gss.flatten.length + gss.length := by
  intro gss
  induction gss with
  | nil => intro rnum; simp [groupsClosedMods]
  | cons ids rest ih =>
    intro rnum
    simp only [groupsClosedMods, List.length_append, List.length_cons,
      List.length_map, List.flatten, ih]
    simp [List.flatten]
    omega

/-- A network descriptor with the largest 16-bit base port. -/
def ndHi : NetworkConnectionDescriptor :=
  { data_type := "fragments", connection_type := "kSendRecv",
    uri := "tcp://host", port := 65535, uid_base := "conn_" }

/-- TP-handler network descriptor fixture. -/
def ndTP : NetworkConnectionDescriptor :=
  { data_type := "tps", connection_type := "kSendRecv",
    uri := "tcp://tp", port := 15000, uid_base := "req_" }

/-- One enabled group of one enabled stream (id 1) plus a full TP config:
N = 1 enabled stream, G = 1 group, TP present. -/
def appTPandStream : ReadoutApplication :=
  { uid := "ru", link_handler := some lhA, tp_handler := some ⟨"tpconf"⟩,
    tp_src_id := 7, data_reader := some rdA,
    queue_rules := [⟨"DLH", qdA⟩, ⟨"TPHandler", qdA⟩],
    network_rules := [⟨"DLH", ndA⟩, ⟨"TPHandler", ndTP⟩],
    contains := [⟨false, some [⟨some ⟨1, false⟩⟩]⟩] }

/-- **C8 counterexample.**  For `appTPandStream`, N = 1 enabled stream,
G = 1 processed group and a TP config is present, and the returned module
list is the TP handler, the stream handler and the reader — 3 module
records, not the claimed N + G + 3 = 5. -/
theorem module_count_counterexample :
    (generate_modules appTPandStream).2 =
      .ok [ModuleRef.tpHandler "tphandler-7", ModuleRef.dlh "DLH-1",
           ModuleRef.dataReader "datareader-ru-0"] ∧
    (processedGroupIds appTPandStream.contains).flatten.length = 1 ∧
    (processedGroupIds appTPandStream.contains).length = 1 ∧
    appTPandStream.tp_handler.isSome = true ∧
    [ModuleRef.tpHandler "tphandler-7", ModuleRef.dlh "DLH-1",
     ModuleRef.dataReader "datareader-ru-0"].length ≠ 1 + 1 + 3 := by
  refine ⟨rfl, rfl, rfl, rfl, by decide⟩

/-- **C8 (amended).**  A successful `generate_modules` run returns the TP
handler module first when a TP config is present, then for each processed
group in declaration order that group's stream handler modules followed by
the group's reader module; the list has N + G + 1 entries with a TP config
and N + G without, where N is the number of enabled streams and G the
number of processed groups. -/
theorem module_list_order_and_count (app : ReadoutApplication)
    (st : List ConfRecord) (mods : List ModuleRef)
    (h : generate_modules app = (st, .ok mods)) :
    ((app.tp_handler = none ∧
        mods = groupsClosedMods app.uid (processedGroupIds app.contains) 0) ∨
     (∃ c, app.tp_handler = some c ∧
        mods = ModuleRef.tpHandler ("tphandler-" ++ decStr app.get_tp_src_id)
          :: groupsClosedMods app.uid (processedGroupIds app.contains) 0)) ∧
    mods.length = (processedGroupIds app.contains).flatten.length
      + (processedGroupIds app.contains).length
      + (if app.tp_handler.isSome then 1 else 0) := by
  obtain ⟨dlhConf, rdrConf, tpRecs, tpMods, tpq, _, _, hstage, _, hmods, _⟩ :=
    generate_modules_ok app st mods h
  obtain ⟨_, hshape⟩ := tpStage_ok_shape _ _ _ _ _ _ _ hstage
  rcases hshape with ⟨hc, _, hms, _⟩ | ⟨c, nd, qd, hc, _, _, _, hms, _, _⟩
  · subst hms
    constructor
    · exact Or.inl ⟨hc, by simpa using hmods⟩
    · rw [hmods, hc]
      simp [groupsClosedMods_length]
  · subst hms
    constructor
    · exact Or.inr ⟨c, hc, by simpa using hmods⟩
    · rw [hmods, hc]
      simp [groupsClosedMods_length]

/-- Witness for `module_list_order_and_count` at `appTPandStream`: the
3-element module list satisfies the amended count N + G + 1 = 3. -/
theorem module_list_order_and_count_witness :
    ([ModuleRef.tpHandler "tphandler-7", ModuleRef.dlh "DLH-1",
      ModuleRef.dataReader "datareader-ru-0"] : List ModuleRef).length =
      (processedGroupIds appTPandStream.contains).flatten.length
        + (processedGroupIds appTPandStream.contains).length
        + (if appTPandStream.tp_handler.isSome then 1 else 0) :=
  (module_list_order_and_count appTPandStream
    (generate_modules appTPandStream).1
    [ModuleRef.tpHandler "tphandler-7", ModuleRef.dlh "DLH-1",
     ModuleRef.dataReader "datareader-ru-0"] rfl).2

theorem enabledStreamIds_lt (items : List ResItem) :
    ∀ id ∈ enabledStreamIds items, id < 4294967296 := by
  intro id hid
  simp only [enabledStreamIds, List.mem_filterMap] at hid
  obtain ⟨r, _, hr⟩ := hid
  cases hc : r.castDROStreamConf with
  | none => rw [hc] at hr; simp at hr
  | some s =>
    rw [hc] at hr
    cases hd : s.disabled with
    | true => simp [hd] at hr
    | false =>
      simp only [hd, Bool.false_eq_true, if_false, Option.some.injEq] at hr
      subst hr
      have : s.src_id % 4294967296 < 4294967296 := Nat.mod_lt _ (by norm_num)
      simpa [DROStreamConf.get_src_id] using this

theorem streamsClosed_mem (dlhClass dlhConfObj : String) (tpq : Option String)
    (qd : QueueDescriptor) (nd : NetworkConnectionDescriptor) :
    ∀ (ids : List Nat) (offset id : Nat), id ∈ ids →
    (∃ r ∈ streamsClosed dlhClass dlhConfObj tpq (some qd) (some nd) ids offset,
      r.className = "Queue" ∧ r.uid = "inputToDLH-" ++ decStr id) ∧
    (∃ r ∈ streamsClosed dlhClass dlhConfObj tpq (some qd) (some nd) ids offset,
      r.className = dlhClass ∧ r.uid = "DLH-" ++ decStr id) ∧
    (∃ r ∈ streamsClosed dlhClass dlhConfObj tpq (some qd) (some nd) ids offset,
      r.className = "NetworkConnection" ∧ r.uid = nd.uid_base ++ hex8 id) := by
  intro ids
  induction ids with
  | nil => intro offset id hid; cases hid
  | cons id0 rest ih =>
    intro offset id hid
    rcases List.mem_cons.mp hid with rfl | hmem
    · refine ⟨⟨⟨"Queue", "inputToDLH-" ++ decStr id,
          [("data_type", .str qd.data_type), ("queue_type", .str qd.queue_type),
           ("capacity", .nat qd.get_capacity)], [], []⟩, ?_, rfl, rfl⟩,
        ⟨⟨dlhClass, "DLH-" ++ decStr id, [("source_id", .nat id)],
          [("handler_configuration", dlhConfObj)],
          outRefsOf tpq ++
            [("inputs", ["inputToDLH-" ++ decStr id,
                         nd.uid_base ++ hex8 id])]⟩, ?_, rfl, rfl⟩,
        ⟨⟨"NetworkConnection", nd.uid_base ++ hex8 id,
          [("data_type", .str nd.data_type),
           ("connection_type", .str nd.connection_type),
           ("uri", .str nd.uri),
           ("port", .nat (streamPort nd.get_port offset))], [], []⟩, ?_, rfl, rfl⟩⟩ <;>
        simp [streamsClosed, buildStream]
    · obtain ⟨⟨r1, m1, p1⟩, ⟨r2, m2, p2⟩, ⟨r3, m3, p3⟩⟩ := ih (offset + 1) id hmem
      exact ⟨⟨r1, List.mem_append_right _ m1, p1⟩,
             ⟨r2, List.mem_append_right _ m2, p2⟩,
             ⟨r3, List.mem_append_right _ m3, p3⟩⟩

theorem groupsClosedStore_mem_stream (appUid dlhClass dlhConfObj : String)
    (tpq : Option String) (qd : QueueDescriptor) (nd : NetworkConnectionDescriptor)
    (rdrConf : DataReaderConf) :
    ∀ (gss : List (List Nat)) (rnum offset : Nat) (ids : List Nat) (id : Nat),
      ids ∈ gss → id ∈ ids →
    (∃ r ∈ groupsClosedStore appUid dlhClass dlhConfObj tpq (some qd) (some nd)
        rdrConf gss rnum offset,
      r.className = "Queue" ∧ r.uid = "inputToDLH-" ++ decStr id) ∧
    (∃ r ∈ groupsClosedStore appUid dlhClass dlhConfObj tpq (some qd) (some nd)
        rdrConf gss rnum offset,
      r.className = dlhClass ∧ r.uid = "DLH-" ++ decStr id) ∧
    (∃ r ∈ groupsClosedStore appUid dlhClass dlhConfObj tpq (some qd) (some nd)
        rdrConf gss rnum offset,
      r.className = "NetworkConnection" ∧ r.uid = nd.uid_base ++ hex8 id) := by
  intro gss
  induction gss with
  | nil => intro rnum offset ids id hids _; cases hids
  | cons ids0 rest ih =>
    intro rnum offset ids id hids hid
    rcases List.mem_cons.mp hids with rfl | hmem
    · obtain ⟨⟨r1, m1, p1⟩, ⟨r2, m2, p2⟩, ⟨r3, m3, p3⟩⟩ :=
        streamsClosed_mem dlhClass dlhConfObj tpq qd nd ids offset id hid
      exact ⟨⟨r1, List.mem_append_left _ m1, p1⟩,
             ⟨r2, List.mem_append_left _ m2, p2⟩,
             ⟨r3, List.mem_append_left _ m3, p3⟩⟩
    · obtain ⟨⟨r1, m1, p1⟩, ⟨r2, m2, p2⟩, ⟨r3, m3, p3⟩⟩ :=
        ih (rnum + 1) (offset + ids0.length) ids id hmem hid
      exact ⟨⟨r1, List.mem_append_right _ (List.mem_cons_of_mem _ m1), p1⟩,
             ⟨r2, List.mem_append_right _ (List.mem_cons_of_mem _ m2), p2⟩,
             ⟨r3, List.mem_append_right _ (List.mem_cons_of_mem _ m3), p3⟩⟩

theorem groupsClosedStore_mem_reader (appUid dlhClass dlhConfObj : String)
    (tpq : Option String) (qDesc : Option QueueDescriptor)
    (nDesc : Option NetworkConnectionDescriptor) (rdrConf : DataReaderConf) :
    ∀ (gss : List (List Nat)) (rnum offset i : Nat) (ids : List Nat),
      gss[i]? = some ids →
    ∃ r ∈ groupsClosedStore appUid dlhClass dlhConfObj tpq qDesc nDesc rdrConf
        gss rnum offset,
      r.className = rdrConf.template_for ∧
      r.uid = "datareader-" ++ appUid ++ "-" ++ decStr (rnum + i) := by
  intro gss
  induction gss with
  | nil => intro rnum offset i ids hids; simp at hids
  | cons ids0 rest ih =>
    intro rnum offset i ids hids
    cases i with
    | zero =>
      refine ⟨readerRecord appUid rdrConf rnum ids0,
        List.mem_append_right _ (List.mem_cons_self _ _), rfl, ?_⟩
      simp [readerRecord]
    | succ i =>
      simp only [List.getElem?_cons_succ] at hids
      obtain ⟨r, hm, hcl, huid⟩ := ih (rnum + 1) (offset + ids0.length) i ids hids
      refine ⟨r, List.mem_append_right _ (List.mem_cons_of_mem _ hm), hcl, ?_⟩
      rw [huid]
      congr 1
      congr 1
      omega

/-- Spec §8 scenario: one enabled group with stream 1 enabled and stream 2
disabled, no TP handler. -/
def appScen : ReadoutApplication :=
  { uid := "ru", link_handler := some lhA, tp_handler := none, tp_src_id := 0,
    data_reader := some rdA, queue_rules := [⟨"DLH", qdA⟩],
    network_rules := [⟨"DLH", ndA⟩],
    contains := [⟨false, some [⟨some ⟨1, false⟩⟩, ⟨some ⟨2, true⟩⟩]⟩] }

/-- **C7.**  On every successful run: each enabled stream id `s` (always a
uint32 value) gets a Queue record `inputToDLH-<s decimal>`, a handler
record `DLH-<s decimal>` in the handler template class, and a Network
record named by the descriptor's address template followed by `s` in hex;
each processed group `i` gets a reader record
`datareader-<appUid>-<i decimal>`.  The final conjuncts certify the
renderings: `decStr` is exact base-10, and `hex8` of a uint32 is exactly 8
characters, all lowercase hex digits, decoding back to the value. -/
theorem identifier_formats (app : ReadoutApplication) (st : List ConfRecord)
    (mods : List ModuleRef) (h : generate_modules app = (st, .ok mods)) :
    ∃ dlhConf rdrConf,
      app.link_handler = some dlhConf ∧ app.data_reader = some rdrConf ∧
      (∀ id ∈ (processedGroupIds app.contains).flatten,
        id < 4294967296 ∧
        (∃ r ∈ st, r.className = "Queue" ∧ r.uid = "inputToDLH-" ++ decStr id) ∧
        (∃ r ∈ st, r.className = dlhConf.template_for ∧
          r.uid = "DLH-" ++ decStr id) ∧
        (∃ nd, (resolveNetworkRules app.network_rules dlhConf.template_for).1 =
            some nd ∧
          ∃ r ∈ st, r.className = "NetworkConnection" ∧
            r.uid = nd.uid_base ++ hex8 id)) ∧
      (∀ (i : Nat) (ids : List Nat),
        (processedGroupIds app.contains)[i]? = some ids →
        ∃ r ∈ st, r.className = rdrConf.template_for ∧
          r.uid = "datareader-" ++ app.uid ++ "-" ++ decStr i) ∧
      (∀ n, chListVal 10 (decStr n).data = n) ∧
      (∀ n, n < 4294967296 → (hex8 n).length = 8 ∧
        chListVal 16 (hex8 n).data = n ∧
        ∀ c ∈ (hex8 n).data, c ∈ "0123456789abcdef".data) := by
  obtain ⟨dlhConf, rdrConf, tpRecs, tpMods, tpq, hlh, hdr, hstage, hst, hmods, hdescs⟩ :=
    generate_modules_ok app st mods h
  refine ⟨dlhConf, rdrConf, hlh, hdr, ?_, ?_, ?_, ?_⟩
  · intro id hid
    have hlt : id < 4294967296 := by
      obtain ⟨ids, hids, hidin⟩ := List.mem_flatten.mp hid
      simp only [processedGroupIds, List.mem_filterMap] at hids
      obtain ⟨g, _, hg⟩ := hids
      by_cases hgd : g.disabled = true
      · simp [hgd] at hg
      · simp only [hgd, if_neg, Bool.false_eq_true, not_false_iff] at hg
        cases hcast : g.castReadoutGroup with
        | none => rw [hcast] at hg; simp at hg
        | some items =>
          rw [hcast] at hg
          simp only [Option.some.injEq] at hg
          subst hg
          exact enabledStreamIds_lt items id hidin
    obtain ⟨qd, nd, hqd, hnd⟩ := hdescs (by
      intro hempty
      rw [hempty] at hid
      cases hid)
    obtain ⟨ids, hids, hidin⟩ := List.mem_flatten.mp hid
    obtain ⟨⟨r1, m1, p1⟩, ⟨r2, m2, p2⟩, ⟨r3, m3, p3⟩⟩ :=
      groupsClosedStore_mem_stream app.uid dlhConf.template_for
        dlhConf.config_object tpq qd nd rdrConf
        (processedGroupIds app.contains) 0 0 ids id hids hidin
    rw [hqd, hnd] at hst
    refine ⟨hlt, ⟨r1, ?_, p1⟩, ⟨r2, ?_, p2⟩, ⟨nd, hnd, r3, ?_, p3⟩⟩ <;>
      rw [hst] <;> exact List.mem_append_right _ (by assumption)
  · intro i ids hids
    obtain ⟨r, hm, hcl, huid⟩ :=
      groupsClosedStore_mem_reader app.uid dlhConf.template_for
        dlhConf.config_object tpq
        (resolveQueueRules app.queue_rules dlhConf.template_for).1
        (resolveNetworkRules app.network_rules dlhConf.template_for).1
        rdrConf (processedGroupIds app.contains) 0 0 i ids hids
    refine ⟨r, ?_, hcl, by simpa using huid⟩
    rw [hst]
    exact List.mem_append_right _ hm
  · exact decStr_val
  · intro n hn
    exact ⟨hex8_length n, hex8_val hn, fun c hc => hex8_chars hc⟩

/-- Witness for `identifier_formats` at the §8 scenario application. -/
theorem identifier_formats_witness :
    ∃ r ∈ (generate_modules appScen).1,
      r.className = "Queue" ∧ r.uid = "inputToDLH-" ++ decStr 1 := by
  obtain ⟨dlhConf, rdrConf, _, _, hstream, _, _, _⟩ :=
    identifier_formats appScen (generate_modules appScen).1
      [ModuleRef.dlh "DLH-1", ModuleRef.dataReader "datareader-ru-0"] rfl
  exact (hstream 1 (by decide)).2.1

/-! ### Exactly one reader record per processed group -/

theorem string_append_left_cancel {s a b : String} (h : s ++ a = s ++ b) :
    a = b := by
  have hd := congrArg String.data h
  rw [String.data_append, String.data_append] at hd
  exact String.ext (List.append_cancel_left hd)

theorem buildStream_refs (dlhClass dlhConfObj : String) (tpq : Option String)
    (qDesc : Option QueueDescriptor) (nDesc : Option NetworkConnectionDescriptor)
    (id offset : Nat) :
    ∀ r ∈ (buildStream dlhClass dlhConfObj tpq qDesc nDesc id offset).1,
      r.refs = [] ∨ ∃ o, r.refs = [("handler_configuration", o)] := by
  intro r hr
  cases qDesc with
  | none =>
    simp only [buildStream, List.mem_cons, List.not_mem_nil, or_false] at hr
    rcases hr with rfl | rfl
    · exact Or.inr ⟨dlhConfObj, rfl⟩
    · exact Or.inl rfl
  | some qd =>
    cases nDesc with
    | none =>
      simp only [buildStream, List.mem_cons, List.not_mem_nil, or_false] at hr
      rcases hr with rfl | rfl
      · exact Or.inr ⟨dlhConfObj, rfl⟩
      · exact Or.inl rfl
    | some nd =>
      simp only [buildStream, List.mem_cons, List.not_mem_nil, or_false] at hr
      rcases hr with rfl | rfl | rfl
      · exact Or.inr ⟨dlhConfObj, rfl⟩
      · exact Or.inl rfl
      · exact Or.inl rfl

theorem streamsClosed_refs (dlhClass dlhConfObj : String) (tpq : Option String)
    (qDesc : Option QueueDescriptor) (nDesc : Option NetworkConnectionDescriptor) :
    ∀ (ids : List Nat) (offset : Nat),
    ∀ r ∈ streamsClosed dlhClass dlhConfObj tpq qDesc nDesc ids offset,
      r.refs = [] ∨ ∃ o, r.refs = [("handler_configuration", o)] := by
  intro ids
  induction ids with
  | nil => intro offset r hr; cases hr
  | cons id rest ih =>
    intro offset r hr
    rcases List.mem_append.mp hr with hm | hm
    · exact buildStream_refs dlhClass dlhConfObj tpq qDesc nDesc id offset r hm
    · exact ih (offset + 1) r hm

theorem ne_readerRecord_of_refs {r : ConfRecord}
    (hr : r.refs = [] ∨ ∃ o, r.refs = [("handler_configuration", o)])
    (appUid : String) (rdrConf : DataReaderConf) (n : Nat) (ids : List Nat) :
    r ≠ readerRecord appUid rdrConf n ids := by
  intro he
  rw [he] at hr
  rcases hr with h0 | ⟨o, h0⟩
  · exact List.cons_ne_nil _ _ h0
  · have hhd : ("configuration" : String) = "handler_configuration" := by
      have h1 := congrArg (fun l => (l.headD ("", "")).1) h0
      simp only [readerRecord, List.headD] at h1
      exact h1
    exact absurd hhd (by decide)

theorem reader_not_mem_of_refs {l : List ConfRecord}
    (hl : ∀ r ∈ l, r.refs = [] ∨ ∃ o, r.refs = [("handler_configuration", o)])
    (appUid : String) (rdrConf : DataReaderConf) (n : Nat) (ids : List Nat) :
    readerRecord appUid rdrConf n ids ∉ l := fun hm =>
  ne_readerRecord_of_refs (hl _ hm) appUid rdrConf n ids rfl

theorem readerRecord_num_inj {appUid : String} {rdr : DataReaderConf}
    {a b : Nat} {idsA idsB : List Nat}
    (h : readerRecord appUid rdr a idsA = readerRecord appUid rdr b idsB) :
    a = b := by
  have huid := congrArg ConfRecord.uid h
  simp only [readerRecord] at huid
  exact decStr_injective (string_append_left_cancel huid)

theorem count_reader_streamsClosed (dlhClass dlhConfObj : String)
    (tpq : Option String) (qDesc : Option QueueDescriptor)
    (nDesc : Option NetworkConnectionDescriptor) (appUid : String)
    (rdrConf : DataReaderConf) (n : Nat) (ids2 : List Nat)
    (ids : List Nat) (offset : Nat) :
    (streamsClosed dlhClass dlhConfObj tpq qDesc nDesc ids offset).count
      (readerRecord appUid rdrConf n ids2) = 0 :=
  List.count_eq_zero.mpr
    (reader_not_mem_of_refs
      (streamsClosed_refs dlhClass dlhConfObj tpq qDesc nDesc ids offset)
      appUid rdrConf n ids2)

theorem count_reader_groupsClosedStore_lt (appUid dlhClass dlhConfObj : String)
    (tpq : Option String) (qDesc : Option QueueDescriptor)
    (nDesc : Option NetworkConnectionDescriptor) (rdrConf : DataReaderConf)
    (n : Nat) (ids : List Nat) :
    ∀ (gss : List (List Nat)) (rnum offset : Nat), n < rnum →
    (groupsClosedStore appUid dlhClass dlhConfObj tpq qDesc nDesc rdrConf
      gss rnum offset).count (readerRecord appUid rdrConf n ids) = 0 := by
  intro gss
  induction gss with
  | nil => intro rnum offset _; rfl
  | cons ids0 rest ih =>
    intro rnum offset hn
    have hne : ¬(readerRecord appUid rdrConf rnum ids0 =
        readerRecord appUid rdrConf n ids) := by
      intro he
      exact absurd (readerRecord_num_inj he) (by omega)
    have hrest := ih (rnum + 1) (offset + ids0.length) (by omega)
    simp only [groupsClosedStore, List.count_append, List.count_cons,
      count_reader_streamsClosed, hrest]
    simp [hne]

theorem count_reader_groupsClosedStore (appUid dlhClass dlhConfObj : String)
    (tpq : Option String) (qDesc : Option QueueDescriptor)
    (nDesc : Option NetworkConnectionDescriptor) (rdrConf : DataReaderConf) :
    ∀ (gss : List (List Nat)) (i rnum offset : Nat) (ids : List Nat),
      gss[i]? = some ids →
    (groupsClosedStore appUid dlhClass dlhConfObj tpq qDesc nDesc rdrConf
      gss rnum offset).count (readerRecord appUid rdrConf (rnum + i) ids) = 1 := by
  intro gss
  induction gss with
  | nil => intro i rnum offset ids hids; simp at hids
  | cons ids0 rest ih =>
    intro i rnum offset ids hids
    cases i with
    | zero =>
      simp only [List.getElem?_cons_zero, Option.some.injEq] at hids
      subst hids
      have h0 : (groupsClosedStore appUid dlhClass dlhConfObj tpq qDesc nDesc
          rdrConf rest (rnum + 1) (offset + ids0.length)).count
          (readerRecord appUid rdrConf rnum ids0) = 0 :=
        count_reader_groupsClosedStore_lt appUid dlhClass dlhConfObj tpq
          qDesc nDesc rdrConf rnum ids0 rest (rnum + 1)
          (offset + ids0.length) (by omega)
      simp only [groupsClosedStore, List.count_append, List.count_cons,
        count_reader_streamsClosed, Nat.add_zero, h0]
      simp
    | succ i =>
      simp only [List.getElem?_cons_succ] at hids
      have hne : ¬(readerRecord appUid rdrConf rnum ids0 =
          readerRecord appUid rdrConf (rnum + (i + 1)) ids) := by
        intro he
        exact absurd (readerRecord_num_inj he) (by omega)
      have hrec := ih i (rnum + 1) (offset + ids0.length) ids hids
      simp only [groupsClosedStore, List.count_append, List.count_cons,
        count_reader_streamsClosed]
      rw [show rnum + 1 + i = rnum + (i + 1) by omega] at hrec
      simp [hne, hrec]

/-- **C1 counterexample.**  On the §8 scenario the single reader record
has reference lists `[("outputs", ["inputToDLH-1"])]`:  the queue list is
nonempty but is stored under `outputs` (line 216 of the source), and no
`inputs` reference list exists on the reader, contradicting the claim
that the reader's `inputs` is the queue list. -/
theorem reader_inputs_counterexample :
    (generate_modules appScen).1.filter (fun r => r.uid == "datareader-ru-0") =
      [⟨"FelixReader", "datareader-ru-0", [], [("configuration", "rdconf")],
        [("outputs", ["inputToDLH-1"])]⟩] ∧
    (List.lookup "inputs" [(("outputs" : String), (["inputToDLH-1"] : List String))]) =
      none ∧
    (["inputToDLH-1"] : List String) ≠ [] := by
  exact ⟨rfl, rfl, by decide⟩

/-- **C1 (amended).**  On every successful run, each processed group
(index `i`, enabled stream ids `ids`) yields exactly one DataReader
record, and that record's *`outputs`* reference list (not `inputs`, which
is never set on readers) is exactly the queue uids of the group's enabled
streams, with `configuration` the reader template's config reference. -/
theorem reader_outputs_per_group (app : ReadoutApplication)
    (st : List ConfRecord) (mods : List ModuleRef)
    (h : generate_modules app = (st, .ok mods)) :
    ∃ rdrConf, app.data_reader = some rdrConf ∧
    ∀ (i : Nat) (ids : List Nat),
      (processedGroupIds app.contains)[i]? = some ids →
      st.count (readerRecord app.uid rdrConf i ids) = 1 ∧
      (readerRecord app.uid rdrConf i ids).refLists =
        [("outputs", ids.map (fun id => "inputToDLH-" ++ decStr id))] ∧
      (readerRecord app.uid rdrConf i ids).refs =
        [("configuration", rdrConf.config_object)] := by
  obtain ⟨dlhConf, rdrConf, tpRecs, tpMods, tpq, hlh, hdr, hstage, hst, hmods, _⟩ :=
    generate_modules_ok app st mods h
  refine ⟨rdrConf, hdr, ?_⟩
  intro i ids hids
  obtain ⟨htpRefs, _⟩ := tpStage_ok_shape _ _ _ _ _ _ _ hstage
  have htp0 : tpRecs.count (readerRecord app.uid rdrConf i ids) = 0 :=
    List.count_eq_zero.mpr
      (reader_not_mem_of_refs htpRefs app.uid rdrConf i ids)
  have hgrp : (groupsClosedStore app.uid dlhConf.template_for
      dlhConf.config_object tpq
      (resolveQueueRules app.queue_rules dlhConf.template_for).1
      (resolveNetworkRules app.network_rules dlhConf.template_for).1
      rdrConf (processedGroupIds app.contains) 0 0).count
      (readerRecord app.uid rdrConf i ids) = 1 := by
    have := count_reader_groupsClosedStore app.uid dlhConf.template_for
      dlhConf.config_object tpq
      (resolveQueueRules app.queue_rules dlhConf.template_for).1
      (resolveNetworkRules app.network_rules dlhConf.template_for).1
      rdrConf (processedGroupIds app.contains) i 0 0 ids hids
    simp only [Nat.zero_add] at this
    exact this
  refine ⟨?_, rfl, rfl⟩
  rw [hst, List.count_append, htp0, hgrp]

/-- Witness for `reader_outputs_per_group` at the §8 scenario. -/
theorem reader_outputs_per_group_witness :
    (generate_modules appScen).1.count (readerRecord "ru" rdA 0 [1]) = 1 := by
  obtain ⟨rdrConf, hdr, hall⟩ :=
    reader_outputs_per_group appScen (generate_modules appScen).1
      [ModuleRef.dlh "DLH-1", ModuleRef.dataReader "datareader-ru-0"] rfl
  have hr : some rdA = some rdrConf := hdr
  have hr2 : rdA = rdrConf := by injection hr
  subst hr2
  exact (hall 0 [1] (by decide)).1

/-! ### Port assignment -/

/-- The ports the stream loop assigns starting at a given offset, one per
created stream network connection. -/
def portSeq (base : Nat) : Nat → Nat → List Nat
  | _, 0 => []
  | offset, n + 1 => streamPort base offset :: portSeq base (offset + 1) n

theorem ports_streamsClosed (dlhClass dlhConfObj : String) (tpq : Option String)
    (qd : QueueDescriptor) (nd : NetworkConnectionDescriptor) :
    ∀ (ids : List Nat) (offset : Nat),
    portsOf (streamsClosed dlhClass dlhConfObj tpq (some qd) (some nd) ids offset) =
      portSeq nd.get_port offset ids.length := by
  intro ids
  induction ids with
  | nil => intro offset; rfl
  | cons id rest ih =>
    intro offset
    have hsplit : streamsClosed dlhClass dlhConfObj tpq (some qd) (some nd)
        (id :: rest) offset =
        (buildStream dlhClass dlhConfObj tpq (some qd) (some nd) id offset).1 ++
          streamsClosed dlhClass dlhConfObj tpq (some qd) (some nd) rest
            (offset + 1) := rfl
    have hb : (buildStream dlhClass dlhConfObj tpq (some qd) (some nd)
        id offset).1.filterMap portVal = [streamPort nd.get_port offset] := rfl
    simp only [hsplit, portsOf, List.filterMap_append] at ih ⊢
    rw [hb, ih]
    rfl

theorem portSeq_append (base : Nat) :
    ∀ (m k offset : Nat),
    portSeq base offset (m + k) = portSeq base offset m ++ portSeq base (offset + m) k := by
  intro m
  induction m with
  | zero => intro k offset; simp [portSeq]
  | succ m ih =>
    intro k offset
    rw [show m + 1 + k = (m + k) + 1 by omega]
    simp only [portSeq, List.cons_append]
    rw [ih k (offset + 1), show offset + (m + 1) = offset + 1 + m by omega]

theorem ports_groupsClosedStore (appUid dlhClass dlhConfObj : String)
    (tpq : Option String) (qd : QueueDescriptor)
    (nd : NetworkConnectionDescriptor) (rdrConf : DataReaderConf) :
    ∀ (gss : List (List Nat)) (rnum offset : Nat),
    portsOf (groupsClosedStore appUid dlhClass dlhConfObj tpq (some qd) (some nd)
        rdrConf gss rnum offset) =
      portSeq nd.get_port offset gss.flatten.length := by
  intro gss
  induction gss with
  | nil => intro rnum offset; rfl
  | cons ids0 rest ih =>
    intro rnum offset
    have hsplit : groupsClosedStore appUid dlhClass dlhConfObj tpq (some qd)
        (some nd) rdrConf (ids0 :: rest) rnum offset =
        streamsClosed dlhClass dlhConfObj tpq (some qd) (some nd) ids0 offset ++
          readerRecord appUid rdrConf rnum ids0 ::
            groupsClosedStore appUid dlhClass dlhConfObj tpq (some qd) (some nd)
              rdrConf rest (rnum + 1) (offset + ids0.length) := rfl
    have hreader : portVal (readerRecord appUid rdrConf rnum ids0) = none := rfl
    simp only [hsplit, portsOf, List.filterMap_append, List.filterMap_cons, hreader]
    rw [show (streamsClosed dlhClass dlhConfObj tpq (some qd) (some nd)
        ids0 offset).filterMap portVal =
        portsOf (streamsClosed dlhClass dlhConfObj tpq (some qd) (some nd)
          ids0 offset) from rfl]
    rw [ports_streamsClosed]
    rw [show (groupsClosedStore appUid dlhClass dlhConfObj tpq (some qd) (some nd)
        rdrConf rest (rnum + 1) (offset + ids0.length)).filterMap portVal =
        portsOf (groupsClosedStore appUid dlhClass dlhConfObj tpq (some qd)
          (some nd) rdrConf rest (rnum + 1) (offset + ids0.length)) from rfl]
    rw [ih (rnum + 1) (offset + ids0.length)]
    rw [List.flatten_cons, List.length_append, portSeq_append]

theorem ports_groupsClosedStore_nil (appUid dlhClass dlhConfObj : String)
    (tpq : Option String) (qDesc : Option QueueDescriptor)
    (nDesc : Option NetworkConnectionDescriptor) (rdrConf : DataReaderConf) :
    ∀ (gss : List (List Nat)) (rnum offset : Nat), gss.flatten = [] →
    portsOf (groupsClosedStore appUid dlhClass dlhConfObj tpq qDesc nDesc
        rdrConf gss rnum offset) = [] := by
  intro gss
  induction gss with
  | nil => intro rnum offset _; rfl
  | cons ids0 rest ih =>
    intro rnum offset hflat
    rw [List.flatten_cons] at hflat
    obtain ⟨h1, h2⟩ := List.append_eq_nil.mp hflat
    subst h1
    have hreader : portVal (readerRecord appUid rdrConf rnum []) = none := rfl
    have hsplit : groupsClosedStore appUid dlhClass dlhConfObj tpq qDesc nDesc
        rdrConf ([] :: rest) rnum offset =
        readerRecord appUid rdrConf rnum [] ::
          groupsClosedStore appUid dlhClass dlhConfObj tpq qDesc nDesc rdrConf
            rest (rnum + 1) offset := by
      simp [groupsClosedStore, streamsClosed]
    rw [hsplit]
    simp only [portsOf, List.filterMap_cons, hreader]
    exact ih (rnum + 1) offset h2

theorem portSeq_range (base : Nat) :
    ∀ (n offset : Nat), portSeq base offset n =
      (List.range n).map (fun k => streamPort base (offset + k)) := by
  intro n
  induction n with
  | zero => intro offset; rfl
  | succ n ih =>
    intro offset
    rw [portSeq_append base n 1 offset, List.range_succ, List.map_append,
      ih offset]
    simp [portSeq]

/-- Two enabled streams with base port 65535: the second assigned port
wraps to 0 instead of 65536. -/
def appWrap : ReadoutApplication :=
  { uid := "ru", link_handler := some lhA, tp_handler := none, tp_src_id := 0,
    data_reader := some rdA, queue_rules := [⟨"DLH", qdA⟩],
    network_rules := [⟨"DLH", ndHi⟩],
    contains := [⟨false, some [⟨some ⟨1, false⟩⟩, ⟨some ⟨2, false⟩⟩]⟩] }

/-- Three enabled streams with base port 65535: assigned ports 65535, 0, 1. -/
def appWrapB : ReadoutApplication :=
  { uid := "ru", link_handler := some lhA, tp_handler := none, tp_src_id := 0,
    data_reader := some rdA, queue_rules := [⟨"DLH", qdA⟩],
    network_rules := [⟨"DLH", ndHi⟩],
    contains := [⟨false,
      some [⟨some ⟨1, false⟩⟩, ⟨some ⟨2, false⟩⟩, ⟨some ⟨3, false⟩⟩]⟩] }

/-- **C6 counterexample.**  With base port 65535 and two enabled streams
the created stream connections carry ports 65535 and 0: the second port is
not base_port + offset = 65536 (the `uint16_t` assignment truncates), so
the claimed exact equality and strict increase fail. -/
theorem port_wrap_counterexample :
    portsOf (generate_modules appWrap).1 = [65535, 0] ∧
    ndHi.get_port = 65535 ∧ (0 : Nat) ≠ 65535 + 1 :=
  ⟨rfl, rfl, by decide⟩

/-- **C6 (amended).**  On every successful run, the ports of the stream
network records in creation order are
`(base + k) mod 2^16` for k = 0, 1, ... over all enabled streams in
declaration order regardless of group boundaries (`base` the resolved
network descriptor's port), `0` throughout when the base port is 0;
disabled streams consume no offset (`k` ranges over enabled streams
only). -/
theorem port_offset_assignment (app : ReadoutApplication)
    (st : List ConfRecord) (mods : List ModuleRef)
    (h : generate_modules app = (st, .ok mods)) :
    ∃ dlhConf tpRecs grpStore,
      app.link_handler = some dlhConf ∧
      st = tpRecs ++ grpStore ∧
      (∃ tpMods tpq, tpStage app.tp_handler
          (resolveNetworkRules app.network_rules dlhConf.template_for).2
          (resolveQueueRules app.queue_rules dlhConf.template_for).2
          app.get_tp_src_id = .ok (tpRecs, tpMods, tpq)) ∧
      (∀ nd, (resolveNetworkRules app.network_rules dlhConf.template_for).1 =
          some nd →
        portsOf grpStore =
          (List.range (processedGroupIds app.contains).flatten.length).map
            (fun k => if nd.get_port = 0 then 0 else (nd.get_port + k) % 65536)) ∧
      ((resolveNetworkRules app.network_rules dlhConf.template_for).1 = none →
        portsOf grpStore = []) := by
  obtain ⟨dlhConf, rdrConf, tpRecs, tpMods, tpq, hlh, hdr, hstage, hst, hmods, hdescs⟩ :=
    generate_modules_ok app st mods h
  refine ⟨dlhConf, tpRecs, _, hlh, hst, ⟨tpMods, tpq, hstage⟩, ?_, ?_⟩
  · intro nd hnd
    by_cases hflat : (processedGroupIds app.contains).flatten = []
    · rw [ports_groupsClosedStore_nil _ _ _ _ _ _ _ _ _ _ hflat, hflat]
      rfl
    · obtain ⟨qd, nd2, hqd, hnd2⟩ := hdescs hflat
      have hnd' : nd2 = nd := by
        rw [hnd] at hnd2
        injection hnd2 with hv
        exact hv.symm
      subst hnd'
      rw [hqd, hnd2, ports_groupsClosedStore, portSeq_range]
      apply List.map_congr_left
      intro k _
      simp [streamPort]
  · intro hnone
    by_cases hflat : (processedGroupIds app.contains).flatten = []
    · exact ports_groupsClosedStore_nil _ _ _ _ _ _ _ _ _ _ hflat
    · obtain ⟨qd, nd2, _, hnd2⟩ := hdescs hflat
      rw [hnone] at hnd2
      cases hnd2

/-- Witness for `port_offset_assignment` at the §8 scenario: the single
enabled stream gets port 14000 = base + 0. -/
theorem port_offset_assignment_witness :
    ∃ tpRecs grpStore,
      (generate_modules appScen).1 = tpRecs ++ grpStore ∧
      portsOf grpStore = [14000] := by
  obtain ⟨dlhConf, tpRecs, grpStore, hlh, hst, _, hsome, _⟩ :=
    port_offset_assignment appScen (generate_modules appScen).1
      [ModuleRef.dlh "DLH-1", ModuleRef.dataReader "datareader-ru-0"] rfl
  have hc : lhA = dlhConf := by
    have h2 : some lhA = some dlhConf := hlh
    injection h2
  subst hc
  have hnd := hsome ndA rfl
  exact ⟨tpRecs, grpStore, hst, by rw [hnd]; rfl⟩

/-- **C10.**  The per-stream port is a `uint16_t`: for a non-zero base the
assigned port is `(base + offset) mod 2^16`; ports repeat with period 2^16
in the offset (so after enough created stream connections an assigned port
collides with an earlier one), the assigned port can reach 0 (the "no
fixed port" sentinel), and the run on `appWrapB` (base 65535, three
enabled streams) assigns 65535, 0, 1. -/
theorem port_truncation_16bit :
    (∀ base offset, base ≠ 0 →
      streamPort base offset = (base + offset) % 65536) ∧
    (∀ base offset, streamPort base (offset + 65536) = streamPort base offset) ∧
    (∀ base, base ≠ 0 → base < 65536 → streamPort base (65536 - base) = 0) ∧
    portsOf (generate_modules appWrapB).1 = [65535, 0, 1] ∧
    (65535 + 1) % 65536 = 0 := by
  refine ⟨?_, ?_, ?_, rfl, by norm_num⟩
  · intro base offset hb
    simp [streamPort, hb]
  · intro base offset
    by_cases hb : base = 0
    · simp [streamPort, hb]
    · simp only [streamPort, hb, if_false]
      omega
  · intro base hb hlt
    simp only [streamPort, hb, if_false]
    omega

/-! ### Missing link-handler descriptors are fatal at first use -/

/-- A contained item that casts to a stream enabled for the session. -/
def ResItem.isEnabledStream (r : ResItem) : Bool :=
  match r.castDROStreamConf with
  | some s => !s.disabled
  | none => false

/-- A contained item that casts to a `DROStreamConf`. -/
def ResItem.castOk (r : ResItem) : Bool :=
  r.castDROStreamConf.isSome

/-- An enabled group, castable to `ReadoutGroup`, with an enabled stream. -/
def groupEnabledStream (g : ContainedResource) : Bool :=
  !g.disabled &&
    (match g.castReadoutGroup with
     | some items => items.any ResItem.isEnabledStream
     | none => false)

/-- A group the generator can process without a cast error: disabled, or
castable with every contained item castable to a stream. -/
def groupOk (g : ContainedResource) : Bool :=
  g.disabled ||
    (match g.castReadoutGroup with
     | some items => items.all ResItem.castOk
     | none => false)

/-- The application has at least one enabled stream in an enabled group. -/
def hasEnabledStream (app : ReadoutApplication) : Bool :=
  app.contains.any groupEnabledStream

/-- Every contained group and stream casts to its expected variant. -/
def allCastsOk (app : ReadoutApplication) : Bool :=
  app.contains.all groupOk

theorem flatten_ne_of_hasEnabled (app : ReadoutApplication)
    (h : hasEnabledStream app = true) :
    (processedGroupIds app.contains).flatten ≠ [] := by
  simp only [hasEnabledStream, List.any_eq_true] at h
  obtain ⟨g, hgmem, hgp⟩ := h
  simp only [groupEnabledStream, Bool.and_eq_true] at hgp
  obtain ⟨hdis, hmatch⟩ := hgp
  have hdis' : g.disabled = false := by simpa using hdis
  cases hcast : g.castReadoutGroup with
  | none => rw [hcast] at hmatch; simp at hmatch
  | some items =>
    rw [hcast] at hmatch
    simp only [List.any_eq_true] at hmatch
    obtain ⟨r, hrmem, hrp⟩ := hmatch
    cases hc : r.castDROStreamConf with
    | none => simp [ResItem.isEnabledStream, hc] at hrp
    | some s =>
      have hsd : s.disabled = false := by
        simpa [ResItem.isEnabledStream, hc] using hrp
      have hidmem : s.get_src_id ∈ enabledStreamIds items :=
        List.mem_filterMap.mpr ⟨r, hrmem, by simp [hc, hsd]⟩
      have hgrp : enabledStreamIds items ∈ processedGroupIds app.contains :=
        List.mem_filterMap.mpr ⟨g, hgmem, by simp [hdis', hcast]⟩
      intro hempty
      have hin := List.mem_flatten.mpr ⟨_, hgrp, hidmem⟩
      rw [hempty] at hin
      cases hin

theorem processStreams_skip (dlhClass dlhConfObj : String) (tpq : Option String)
    (qDesc : Option QueueDescriptor) (nDesc : Option NetworkConnectionDescriptor) :
    ∀ (items : List ResItem) (offset : Nat),
      items.all ResItem.castOk = true →
      items.any ResItem.isEnabledStream = false →
    processStreams dlhClass dlhConfObj tpq qDesc nDesc items offset =
      ([], .ok ([], [], offset)) := by
  intro items
  induction items with
  | nil => intro offset _ _; rfl
  | cons r rest ih =>
    intro offset hall hany
    simp only [List.all_cons, Bool.and_eq_true] at hall
    obtain ⟨hr, hrest⟩ := hall
    cases hc : r.castDROStreamConf with
    | none => simp [ResItem.castOk, hc] at hr
    | some s =>
      have hd : s.disabled = true := by
        have := (List.any_cons ▸ hany)
        simp only [Bool.or_eq_false_iff] at this
        simpa [ResItem.isEnabledStream, hc] using this.1
      have hrest2 : rest.any ResItem.isEnabledStream = false := by
        have := (List.any_cons ▸ hany)
        simp only [Bool.or_eq_false_iff] at this
        exact this.2
      rw [processStreams, hc]
      simp only [hd, eq_self_iff_true, if_true]
      exact ih offset hrest hrest2

theorem processStreams_err_qdesc (dlhClass dlhConfObj : String)
    (tpq : Option String) (nDesc : Option NetworkConnectionDescriptor) :
    ∀ (items : List ResItem) (offset : Nat),
      items.all ResItem.castOk = true →
      items.any ResItem.isEnabledStream = true →
    ∃ recs, processStreams dlhClass dlhConfObj tpq none nDesc items offset =
      (recs, .error (.nullDeref "dlhInputQDesc")) := by
  intro items
  induction items with
  | nil => intro offset _ hany; simp at hany
  | cons r rest ih =>
    intro offset hall hany
    simp only [List.all_cons, Bool.and_eq_true] at hall
    obtain ⟨hr, hrest⟩ := hall
    cases hc : r.castDROStreamConf with
    | none => simp [ResItem.castOk, hc] at hr
    | some s =>
      cases hd : s.disabled with
      | true =>
        have hrest2 : rest.any ResItem.isEnabledStream = true := by
          simpa [List.any_cons, ResItem.isEnabledStream, hc, hd] using hany
        obtain ⟨recs, hrec⟩ := ih offset hrest hrest2
        refine ⟨recs, ?_⟩
        rw [processStreams, hc]
        simp only [hd, eq_self_iff_true, if_true]
        exact hrec
      | false =>
        refine ⟨(buildStream dlhClass dlhConfObj tpq none nDesc
          s.get_src_id offset).1, ?_⟩
        rw [processStreams, hc]
        simp only [hd, Bool.false_eq_true, if_false]
        simp [buildStream]

theorem processStreams_err_ndesc (dlhClass dlhConfObj : String)
    (tpq : Option String) (qd : QueueDescriptor) :
    ∀ (items : List ResItem) (offset : Nat),
      items.all ResItem.castOk = true →
      items.any ResItem.isEnabledStream = true →
    ∃ recs, processStreams dlhClass dlhConfObj tpq (some qd) none items offset =
      (recs, .error (.nullDeref "dlhNetDesc")) := by
  intro items
  induction items with
  | nil => intro offset _ hany; simp at hany
  | cons r rest ih =>
    intro offset hall hany
    simp only [List.all_cons, Bool.and_eq_true] at hall
    obtain ⟨hr, hrest⟩ := hall
    cases hc : r.castDROStreamConf with
    | none => simp [ResItem.castOk, hc] at hr
    | some s =>
      cases hd : s.disabled with
      | true =>
        have hrest2 : rest.any ResItem.isEnabledStream = true := by
          simpa [List.any_cons, ResItem.isEnabledStream, hc, hd] using hany
        obtain ⟨recs, hrec⟩ := ih offset hrest hrest2
        refine ⟨recs, ?_⟩
        rw [processStreams, hc]
        simp only [hd, eq_self_iff_true, if_true]
        exact hrec
      | false =>
        refine ⟨(buildStream dlhClass dlhConfObj tpq (some qd) none
          s.get_src_id offset).1, ?_⟩
        rw [processStreams, hc]
        simp only [hd, Bool.false_eq_true, if_false]
        simp [buildStream]

theorem processGroups_err (appUid dlhClass dlhConfObj : String)
    (tpq : Option String) (qDesc : Option QueueDescriptor)
    (nDesc : Option NetworkConnectionDescriptor) (rdrConf : DataReaderConf)
    (e : GenError)
    (hps : ∀ (items : List ResItem) (offset : Nat),
      items.all ResItem.castOk = true →
      items.any ResItem.isEnabledStream = true →
      ∃ recs, processStreams dlhClass dlhConfObj tpq qDesc nDesc items offset =
        (recs, .error e)) :
    ∀ (groups : List ContainedResource) (rnum offset : Nat),
      groups.all groupOk = true →
      groups.any groupEnabledStream = true →
    ∃ recs, processGroups appUid dlhClass dlhConfObj tpq qDesc nDesc rdrConf
        groups rnum offset = (recs, .error e) := by
  intro groups
  induction groups with
  | nil => intro rnum offset _ hany; simp at hany
  | cons g rest ih =>
    intro rnum offset hall hany
    simp only [List.all_cons, Bool.and_eq_true] at hall
    obtain ⟨hg, hrest⟩ := hall
    cases hdis : g.disabled with
    | true =>
      have hany2 : rest.any groupEnabledStream = true := by
        simpa [List.any_cons, groupEnabledStream, hdis] using hany
      obtain ⟨recs, hrec⟩ := ih rnum offset hrest hany2
      refine ⟨recs, ?_⟩
      rw [processGroups]
      simp only [hdis, eq_self_iff_true, if_true]
      exact hrec
    | false =>
      cases hcast : g.castReadoutGroup with
      | none => simp [groupOk, hdis, hcast] at hg
      | some items =>
        have hallItems : items.all ResItem.castOk = true := by
          simpa [groupOk, hdis, hcast] using hg
        cases hanyItems : items.any ResItem.isEnabledStream with
        | true =>
          obtain ⟨recsS, hps'⟩ := hps items offset hallItems hanyItems
          refine ⟨recsS, ?_⟩
          rw [processGroups]
          simp only [hdis, Bool.false_eq_true, if_false, hcast]
          simp [hps']
        | false =>
          have hany2 : rest.any groupEnabledStream = true := by
            simpa [List.any_cons, groupEnabledStream, hdis, hcast, hanyItems]
              using hany
          obtain ⟨recs2, hrec⟩ := ih (rnum + 1) offset hrest hany2
          refine ⟨readerRecord appUid rdrConf rnum [] :: recs2, ?_⟩
          rw [processGroups]
          simp only [hdis, Bool.false_eq_true, if_false, hcast]
          rw [processStreams_skip dlhClass dlhConfObj tpq qDesc nDesc items
            offset hallItems hanyItems]
          simp only []
          rw [hrec]
          simp [readerRecord]

theorem processGroups_skip (appUid dlhClass dlhConfObj : String)
    (tpq : Option String) (qDesc : Option QueueDescriptor)
    (nDesc : Option NetworkConnectionDescriptor) (rdrConf : DataReaderConf) :
    ∀ (groups : List ContainedResource) (rnum offset : Nat),
      groups.all groupOk = true →
      groups.any groupEnabledStream = false →
    ∃ recs mods, processGroups appUid dlhClass dlhConfObj tpq qDesc nDesc rdrConf
        groups rnum offset = (recs, .ok mods) := by
  intro groups
  induction groups with
  | nil => intro rnum offset _ _; exact ⟨[], [], rfl⟩
  | cons g rest ih =>
    intro rnum offset hall hany
    simp only [List.all_cons, Bool.and_eq_true] at hall
    obtain ⟨hg, hrest⟩ := hall
    have hany' := List.any_cons ▸ hany
    simp only [Bool.or_eq_false_iff] at hany'
    obtain ⟨hg2, hrest2⟩ := hany'
    cases hdis : g.disabled with
    | true =>
      obtain ⟨recs, mods, hrec⟩ := ih rnum offset hrest hrest2
      refine ⟨recs, mods, ?_⟩
      rw [processGroups]
      simp only [hdis, eq_self_iff_true, if_true]
      exact hrec
    | false =>
      cases hcast : g.castReadoutGroup with
      | none => simp [groupOk, hdis, hcast] at hg
      | some items =>
        have hallItems : items.all ResItem.castOk = true := by
          simpa [groupOk, hdis, hcast] using hg
        have hanyItems : items.any ResItem.isEnabledStream = false := by
          simpa [groupEnabledStream, hdis, hcast] using hg2
        obtain ⟨recs2, mods2, hrec⟩ := ih (rnum + 1) offset hrest hrest2
        refine ⟨readerRecord appUid rdrConf rnum [] :: recs2,
          ModuleRef.dataReader ("datareader-" ++ appUid ++ "-" ++ decStr rnum)
            :: mods2, ?_⟩
        rw [processGroups]
        simp only [hdis, Bool.false_eq_true, if_false, hcast]
        rw [processStreams_skip dlhClass dlhConfObj tpq qDesc nDesc items
          offset hallItems hanyItems]
        simp only []
        rw [hrec]
        simp [readerRecord]

/-- **C3.**  For an application with at least one enabled stream, a
link-handler queue or network descriptor left unset by the resolver makes
`generate_modules` abort with an error (conjunct 1); when nothing else can
fail first (no TP config, reader template present, all casts fine), the
error is precisely the dereference of the unset descriptor at its first
point of use — `dlhInputQDesc` at the queue-record field reads (line 176),
or `dlhNetDesc` at the address-template read (line 182) when only the
network descriptor is missing (conjuncts 2 and 3); with no enabled stream
at all, the unset descriptors are never dereferenced and the call succeeds
(conjunct 4: fail-fast only at the point of use, not during resolution). -/
theorem missing_dlh_descriptor_fatal (app : ReadoutApplication) :
    (∀ dlhConf, app.link_handler = some dlhConf →
      hasEnabledStream app = true →
      ((resolveQueueRules app.queue_rules dlhConf.template_for).1 = none ∨
       (resolveNetworkRules app.network_rules dlhConf.template_for).1 = none) →
      ∃ st e, generate_modules app = (st, .error e)) ∧
    (∀ dlhConf rdrConf, app.link_handler = some dlhConf →
      app.tp_handler = none → app.data_reader = some rdrConf →
      allCastsOk app = true → hasEnabledStream app = true →
      (resolveQueueRules app.queue_rules dlhConf.template_for).1 = none →
      ∃ st, generate_modules app = (st, .error (.nullDeref "dlhInputQDesc"))) ∧
    (∀ dlhConf rdrConf qd, app.link_handler = some dlhConf →
      app.tp_handler = none → app.data_reader = some rdrConf →
      allCastsOk app = true → hasEnabledStream app = true →
      (resolveQueueRules app.queue_rules dlhConf.template_for).1 = some qd →
      (resolveNetworkRules app.network_rules dlhConf.template_for).1 = none →
      ∃ st, generate_modules app = (st, .error (.nullDeref "dlhNetDesc"))) ∧
    (∀ dlhConf rdrConf, app.link_handler = some dlhConf →
      app.tp_handler = none → app.data_reader = some rdrConf →
      allCastsOk app = true → hasEnabledStream app = false →
      ∃ st mods, generate_modules app = (st, .ok mods)) := by
  refine ⟨?_, ?_, ?_, ?_⟩
  · intro dlhConf hlh hen hmiss
    cases hgen : generate_modules app with
    | mk st res =>
      cases res with
      | error e => exact ⟨st, e, rfl⟩
      | ok mods =>
        exfalso
        obtain ⟨dlhConf2, _, _, _, _, hlh2, _, _, _, _, hdescs⟩ :=
          generate_modules_ok app st mods hgen
        have hdc : dlhConf2 = dlhConf := by
          rw [hlh] at hlh2
          injection hlh2 with hv
          exact hv.symm
        subst hdc
        obtain ⟨qd, nd, hqd, hnd⟩ := hdescs (flatten_ne_of_hasEnabled app hen)
        rcases hmiss with hm | hm
        · rw [hm] at hqd; cases hqd
        · rw [hm] at hnd; cases hnd
  · intro dlhConf rdrConf hlh htp hdr hcasts hen hq
    obtain ⟨recs, hpg⟩ :=
      processGroups_err app.uid dlhConf.template_for dlhConf.config_object
        none
        (resolveQueueRules app.queue_rules dlhConf.template_for).1
        (resolveNetworkRules app.network_rules dlhConf.template_for).1
        rdrConf (.nullDeref "dlhInputQDesc")
        (fun items offset hall hany => by
          rw [hq]
          exact processStreams_err_qdesc dlhConf.template_for
            dlhConf.config_object none
            (resolveNetworkRules app.network_rules dlhConf.template_for).1
            items offset hall hany)
        app.contains 0 0 hcasts hen
    refine ⟨recs, ?_⟩
    rw [generate_modules_some app dlhConf hlh]
    simp only [htp, tpStage, hdr]
    simp [hpg]
  · intro dlhConf rdrConf qd hlh htp hdr hcasts hen hq hn
    obtain ⟨recs, hpg⟩ :=
      processGroups_err app.uid dlhConf.template_for dlhConf.config_object
        none
        (resolveQueueRules app.queue_rules dlhConf.template_for).1
        (resolveNetworkRules app.network_rules dlhConf.template_for).1
        rdrConf (.nullDeref "dlhNetDesc")
        (fun items offset hall hany => by
          rw [hq, hn]
          exact processStreams_err_ndesc dlhConf.template_for
            dlhConf.config_object none qd items offset hall hany)
        app.contains 0 0 hcasts hen
    refine ⟨recs, ?_⟩
    rw [generate_modules_some app dlhConf hlh]
    simp only [htp, tpStage, hdr]
    simp [hpg]
  · intro dlhConf rdrConf hlh htp hdr hcasts hen
    obtain ⟨recs, mods, hpg⟩ :=
      processGroups_skip app.uid dlhConf.template_for dlhConf.config_object
        none
        (resolveQueueRules app.queue_rules dlhConf.template_for).1
        (resolveNetworkRules app.network_rules dlhConf.template_for).1
        rdrConf app.contains 0 0 hcasts hen
    refine ⟨recs, mods, ?_⟩
    rw [generate_modules_some app dlhConf hlh]
    simp only [htp, tpStage, hdr]
    simp [hpg]

/-! ### Identifiers depend only on the uid skeleton of the input -/

/-- What the generated identifiers can see of one contained stream item:
whether it casts, and then its uint32 source id and enabled state. -/
def streamSkel (r : ResItem) : Option (Nat × Bool) :=
  r.castDROStreamConf.map (fun s => (s.get_src_id, s.disabled))

/-- What the generated identifiers can see of one contained group. -/
def groupSkel (g : ContainedResource) : Bool × Option (List (Option (Nat × Bool))) :=
  (g.disabled, g.castReadoutGroup.map (fun items => items.map streamSkel))

/-- The handler template class used for rule matching (empty when the
template is absent — that run crashes before using it). -/
def appDlhClass (app : ReadoutApplication) : String :=
  match app.link_handler with
  | some c => c.template_for
  | none => ""

/-- Everything the generated identifier strings, the returned module
references and the control flow can depend on: the application uid, which
optional collaborators are present, the TP source id, presence of the
resolved descriptors, the resolved network descriptor's address template,
and the group/stream skeleton. -/
def uidSkeleton (app : ReadoutApplication) :=
  (app.uid, app.link_handler.isSome, app.tp_handler.isSome, app.get_tp_src_id,
   app.data_reader.isSome,
   (resolveQueueRules app.queue_rules (appDlhClass app)).1.isSome,
   (resolveQueueRules app.queue_rules (appDlhClass app)).2.isSome,
   (resolveNetworkRules app.network_rules (appDlhClass app)).1.map
     (fun nd => nd.uid_base),
   (resolveNetworkRules app.network_rules (appDlhClass app)).2.isSome,
   app.contains.map groupSkel)

/-- The identifier-visible part of a generation result: the uid of every
store record in creation order, and the returned value (module references
are uid-tagged, errors carry only fixed strings). -/
def resultSkel (x : List ConfRecord × Except GenError (List ModuleRef)) :
    List String × Except GenError (List ModuleRef) :=
  (x.1.map (fun r => r.uid), x.2)

/-- The identifier-visible part of a TP-stage result. -/
def tpResultSkel (x : Except GenError (List ConfRecord × List ModuleRef × Option String)) :
    Except GenError (List String × List ModuleRef × Option String) :=
  x.map (fun t => (t.1.map (fun r => r.uid), t.2.1, t.2.2))

theorem tpStage_skel (tc1 tc2 : Option TPHandlerConf)
    (htc : tc1.isSome = tc2.isSome)
    (n1 n2 : Option NetworkConnectionDescriptor) (hn : n1.isSome = n2.isSome)
    (q1 q2 : Option QueueDescriptor) (hq : q1.isSome = q2.isSome) (src : Nat) :
    tpResultSkel (tpStage tc1 n1 q1 src) = tpResultSkel (tpStage tc2 n2 q2 src) := by
  cases tc1 with
  | none =>
    cases tc2 with
    | none => rfl
    | some _ => exact absurd htc (by simp)
  | some c1 =>
    cases tc2 with
    | none => exact absurd htc (by simp)
    | some c2 =>
      cases n1 with
      | none =>
        cases n2 with
        | none => rfl
        | some _ => exact absurd hn (by simp)
      | some nd1 =>
        cases n2 with
        | none => exact absurd hn (by simp)
        | some nd2 =>
          cases q1 with
          | none =>
            cases q2 with
            | none => rfl
            | some _ => exact absurd hq (by simp)
          | some qd1 =>
            cases q2 with
            | none => exact absurd hq (by simp)
            | some qd2 =>
              by_cases h0 : src = 0
              · simp [tpStage, h0]
              · simp [tpStage, h0, tpResultSkel, Except.map]

theorem buildStream_skel (c1 c2 o1 o2 : String) (tpq : Option String)
    (q1 q2 : Option QueueDescriptor) (hq : q1.isSome = q2.isSome)
    (n1 n2 : Option NetworkConnectionDescriptor)
    (hn : n1.map (fun nd => nd.uid_base) = n2.map (fun nd => nd.uid_base))
    (id offset : Nat) :
    (buildStream c1 o1 tpq q1 n1 id offset).1.map (fun r => r.uid) =
      (buildStream c2 o2 tpq q2 n2 id offset).1.map (fun r => r.uid) ∧
    (buildStream c1 o1 tpq q1 n1 id offset).2 =
      (buildStream c2 o2 tpq q2 n2 id offset).2 := by
  cases q1 with
  | none =>
    cases q2 with
    | none => exact ⟨rfl, rfl⟩
    | some _ => exact absurd hq (by simp)
  | some qd1 =>
    cases q2 with
    | none => exact absurd hq (by simp)
    | some qd2 =>
      cases n1 with
      | none =>
        cases n2 with
        | none => exact ⟨rfl, rfl⟩
        | some _ => exact absurd hn (by simp)
      | some nd1 =>
        cases n2 with
        | none => exact absurd hn (by simp)
        | some nd2 =>
          have hb : nd1.uid_base = nd2.uid_base := by simpa using hn
          constructor
          · simp [buildStream, hb]
          · simp [buildStream]

theorem processStreams_skel (c1 c2 o1 o2 : String) (tpq : Option String)
    (q1 q2 : Option QueueDescriptor) (hq : q1.isSome = q2.isSome)
    (n1 n2 : Option NetworkConnectionDescriptor)
    (hn : n1.map (fun nd => nd.uid_base) = n2.map (fun nd => nd.uid_base)) :
    ∀ (items1 items2 : List ResItem),
      items1.map streamSkel = items2.map streamSkel →
    ∀ offset : Nat,
      (processStreams c1 o1 tpq q1 n1 items1 offset).1.map (fun r => r.uid) =
        (processStreams c2 o2 tpq q2 n2 items2 offset).1.map (fun r => r.uid) ∧
      (processStreams c1 o1 tpq q1 n1 items1 offset).2 =
        (processStreams c2 o2 tpq q2 n2 items2 offset).2 := by
  intro items1
  induction items1 with
  | nil =>
    intro items2 hsk offset
    cases items2 with
    | nil => exact ⟨rfl, rfl⟩
    | cons r2 rest2 => simp at hsk
  | cons r1 rest1 ih =>
    intro items2 hsk offset
    cases items2 with
    | nil => simp at hsk
    | cons r2 rest2 =>
      simp only [List.map_cons, List.cons.injEq] at hsk
      obtain ⟨hhead, htail⟩ := hsk
      cases hc1 : r1.castDROStreamConf with
      | none =>
        have hc2 : r2.castDROStreamConf = none := by
          rw [streamSkel, hc1] at hhead
          cases hc2 : r2.castDROStreamConf with
          | none => rfl
          | some s2 => rw [streamSkel, hc2] at hhead; simp at hhead
        rw [processStreams, hc1, processStreams, hc2]
        exact ⟨rfl, rfl⟩
      | some s1 =>
        obtain ⟨s2, hc2, hid, hdis⟩ : ∃ s2, r2.castDROStreamConf = some s2 ∧
            s2.get_src_id = s1.get_src_id ∧ s2.disabled = s1.disabled := by
          rw [streamSkel, hc1] at hhead
          cases hc2 : r2.castDROStreamConf with
          | none => rw [streamSkel, hc2] at hhead; simp at hhead
          | some s2 =>
            rw [streamSkel, hc2] at hhead
            simp only [Option.map_some', Option.some.injEq, Prod.mk.injEq] at hhead
            exact ⟨s2, rfl, hhead.1.symm, hhead.2.symm⟩
        rw [processStreams, hc1, processStreams, hc2]
        cases hd1 : s1.disabled with
        | true =>
          have hd2 : s2.disabled = true := by rw [hdis, hd1]
          simp only [hd1, hd2, eq_self_iff_true, if_true]
          exact ih rest2 htail offset
        | false =>
          have hd2 : s2.disabled = false := by rw [hdis, hd1]
          simp only [hd1, hd2, Bool.false_eq_true, if_false, hid]
          obtain ⟨hbu, hbr⟩ := buildStream_skel c1 c2 o1 o2 tpq q1 q2 hq n1 n2 hn
            s1.get_src_id offset
          cases hbs1 : buildStream c1 o1 tpq q1 n1 s1.get_src_id offset with
          | mk recsB1 resB1 =>
            cases hbs2 : buildStream c2 o2 tpq q2 n2 s1.get_src_id offset with
            | mk recsB2 resB2 =>
              rw [hbs1, hbs2] at hbu hbr
              simp only [] at hbu hbr
              subst hbr
              cases resB1 with
              | error e => exact ⟨hbu, rfl⟩
              | ok pr =>
                obtain ⟨queueUid, m⟩ := pr
                simp only []
                obtain ⟨ihu, ihr⟩ := ih rest2 htail (offset + 1)
                cases hr1 : processStreams c1 o1 tpq q1 n1 rest1 (offset + 1) with
                | mk recs1 res1 =>
                  cases hr2 : processStreams c2 o2 tpq q2 n2 rest2 (offset + 1) with
                  | mk recs2 res2 =>
                    rw [hr1, hr2] at ihu ihr
                    simp only [] at ihu ihr
                    subst ihr
                    cases res1 with
                    | error e =>
                      refine ⟨?_, rfl⟩
                      simp only [List.map_append, hbu, ihu]
                    | ok t =>
                      obtain ⟨qs, ms, off2⟩ := t
                      refine ⟨?_, rfl⟩
                      simp only [List.map_append, hbu, ihu]

theorem processGroups_skel (appUid c1 c2 o1 o2 : String) (tpq : Option String)
    (rdr1 rdr2 : DataReaderConf)
    (q1 q2 : Option QueueDescriptor) (hq : q1.isSome = q2.isSome)
    (n1 n2 : Option NetworkConnectionDescriptor)
    (hn : n1.map (fun nd => nd.uid_base) = n2.map (fun nd => nd.uid_base)) :
    ∀ (groups1 groups2 : List ContainedResource),
      groups1.map groupSkel = groups2.map groupSkel →
    ∀ (rnum offset : Nat),
      (processGroups appUid c1 o1 tpq q1 n1 rdr1 groups1 rnum offset).1.map
          (fun r => r.uid) =
        (processGroups appUid c2 o2 tpq q2 n2 rdr2 groups2 rnum offset).1.map
          (fun r => r.uid) ∧
      (processGroups appUid c1 o1 tpq q1 n1 rdr1 groups1 rnum offset).2 =
        (processGroups appUid c2 o2 tpq q2 n2 rdr2 groups2 rnum offset).2 := by
  intro groups1
  induction groups1 with
  | nil =>
    intro groups2 hsk rnum offset
    cases groups2 with
    | nil => exact ⟨rfl, rfl⟩
    | cons g2 rest2 => simp at hsk
  | cons g1 rest1 ih =>
    intro groups2 hsk rnum offset
    cases groups2 with
    | nil => simp at hsk
    | cons g2 rest2 =>
      simp only [List.map_cons, List.cons.injEq] at hsk
      obtain ⟨hhead, htail⟩ := hsk
      simp only [groupSkel, Prod.mk.injEq] at hhead
      obtain ⟨hdis, hcast⟩ := hhead
      cases hd1 : g1.disabled with
      | true =>
        have hd2 : g2.disabled = true := by rw [← hdis, hd1]
        rw [processGroups, processGroups]
        simp only [hd1, hd2, eq_self_iff_true, if_true]
        exact ih rest2 htail rnum offset
      | false =>
        have hd2 : g2.disabled = false := by rw [← hdis, hd1]
        rw [processGroups, processGroups]
        simp only [hd1, hd2, Bool.false_eq_true, if_false]
        cases hc1 : g1.castReadoutGroup with
        | none =>
          have hc2 : g2.castReadoutGroup = none := by
            rw [hc1] at hcast
            cases hc2 : g2.castReadoutGroup with
            | none => rfl
            | some items2 => rw [hc2] at hcast; simp at hcast
          rw [hc2]
          exact ⟨rfl, rfl⟩
        | some items1 =>
          obtain ⟨items2, hc2, hitems⟩ : ∃ items2,
              g2.castReadoutGroup = some items2 ∧
              items1.map streamSkel = items2.map streamSkel := by
            rw [hc1] at hcast
            cases hc2 : g2.castReadoutGroup with
            | none => rw [hc2] at hcast; simp at hcast
            | some items2 =>
              rw [hc2] at hcast
              simp only [Option.map_some', Option.some.injEq] at hcast
              exact ⟨items2, rfl, hcast⟩
          rw [hc2]
          simp only []
          obtain ⟨hpu, hpr⟩ := processStreams_skel c1 c2 o1 o2 tpq q1 q2 hq
            n1 n2 hn items1 items2 hitems offset
          cases hps1 : processStreams c1 o1 tpq q1 n1 items1 offset with
          | mk recsS1 resS1 =>
            cases hps2 : processStreams c2 o2 tpq q2 n2 items2 offset with
            | mk recsS2 resS2 =>
              rw [hps1, hps2] at hpu hpr
              simp only [] at hpu hpr
              subst hpr
              cases resS1 with
              | error e => exact ⟨hpu, rfl⟩
              | ok t =>
                obtain ⟨qUids, modsS, off2⟩ := t
                simp only []
                obtain ⟨ihu, ihr⟩ := ih rest2 htail (rnum + 1) off2
                cases hr1 : processGroups appUid c1 o1 tpq q1 n1 rdr1 rest1
                    (rnum + 1) off2 with
                | mk recs1 res1 =>
                  cases hr2 : processGroups appUid c2 o2 tpq q2 n2 rdr2 rest2
                      (rnum + 1) off2 with
                  | mk recs2 res2 =>
                    rw [hr1, hr2] at ihu ihr
                    simp only [] at ihu ihr
                    subst ihr
                    cases res1 with
                    | error e =>
                      refine ⟨?_, rfl⟩
                      simp only [List.map_append, List.map_cons, hpu, ihu]
                    | ok mods2 =>
                      refine ⟨?_, rfl⟩
                      simp only [List.map_append, List.map_cons, hpu, ihu]

/-- `appScen` with a different network address template (`a_`): all source
ids, the application identity and the TP configuration are unchanged. -/
def appBaseA : ReadoutApplication :=
  { uid := "ru", link_handler := some lhA, tp_handler := none, tp_src_id := 0,
    data_reader := some rdA, queue_rules := [⟨"DLH", qdA⟩],
    network_rules := [⟨"DLH",
      { data_type := "fragments", connection_type := "kSendRecv",
        uri := "tcp://host", port := 14000, uid_base := "a_" }⟩],
    contains := [⟨false, some [⟨some ⟨1, false⟩⟩, ⟨some ⟨2, true⟩⟩]⟩] }

/-- Same as `appBaseA` but with address template `b_`. -/
def appBaseB : ReadoutApplication :=
  { uid := "ru", link_handler := some lhA, tp_handler := none, tp_src_id := 0,
    data_reader := some rdA, queue_rules := [⟨"DLH", qdA⟩],
    network_rules := [⟨"DLH",
      { data_type := "fragments", connection_type := "kSendRecv",
        uri := "tcp://host", port := 14000, uid_base := "b_" }⟩],
    contains := [⟨false, some [⟨some ⟨1, false⟩⟩, ⟨some ⟨2, true⟩⟩]⟩] }

/-- Same uid skeleton as `appScen` but different class names, config
objects, capacities, data types and base port. -/
def appDetB : ReadoutApplication :=
  { uid := "ru", link_handler := some ⟨"OtherHandlerClass", "otherconf"⟩,
    tp_handler := none, tp_src_id := 0,
    data_reader := some ⟨"OtherReader", "otherrdconf"⟩,
    queue_rules := [⟨"DLH", ⟨"other", "kOther", 5⟩⟩],
    network_rules := [⟨"DLH", ⟨"x", "y", "tcp://other", 9999, "tp_conn_"⟩⟩],
    contains := [⟨false, some [⟨some ⟨1, false⟩⟩, ⟨some ⟨2, true⟩⟩]⟩] }

/-- **C9 counterexample.**  Two applications with identical uid, identical
groups and stream source ids, and identical TP configuration, differing
only in the network descriptor's address template, produce different
identifier strings — so identifiers are *not* functions of source ids and
group/application identity only. -/
theorem identifier_uid_base_counterexample :
    appBaseA.uid = appBaseB.uid ∧
    appBaseA.contains = appBaseB.contains ∧
    appBaseA.tp_handler = appBaseB.tp_handler ∧
    appBaseA.get_tp_src_id = appBaseB.get_tp_src_id ∧
    (generate_modules appBaseA).1.map (fun r => r.uid) ≠
      (generate_modules appBaseB).1.map (fun r => r.uid) := by
  refine ⟨rfl, rfl, rfl, rfl, by decide⟩

/-- **C9 (amended).**  Generation is deterministic and the identifiers are
functions of the input's uid skeleton only: the application uid, presence
of the optional templates, the uint32 TP source id, presence of the four
resolved descriptors, the resolved network descriptor's address template,
and the group/stream structure (disabled flags, cast shapes and uint32
source ids).  Two runs on inputs with equal skeletons — in particular two
runs on the same input — produce identical store record uid lists, in
order, and identical results (returned module references or error). -/
theorem generation_identifier_invariance (a1 a2 : ReadoutApplication)
    (h : uidSkeleton a1 = uidSkeleton a2) :
    resultSkel (generate_modules a1) = resultSkel (generate_modules a2) := by
  simp only [uidSkeleton, Prod.mk.injEq] at h
  obtain ⟨huid, hlh, htp, hsrc, hdr, hq1, hq2, hn1, hn2, hgs⟩ := h
  cases hl1 : a1.link_handler with
  | none =>
    have hl2 : a2.link_handler = none := by
      rw [hl1] at hlh
      cases hl2 : a2.link_handler with
      | none => rfl
      | some c2 => rw [hl2] at hlh; simp at hlh
    rw [generate_modules, hl1, generate_modules, hl2]
  | some c1 =>
    obtain ⟨c2, hl2⟩ : ∃ c2, a2.link_handler = some c2 := by
      rw [hl1] at hlh
      cases hl2 : a2.link_handler with
      | none => rw [hl2] at hlh; simp at hlh
      | some c2 => exact ⟨c2, rfl⟩
    have hcls1 : appDlhClass a1 = c1.template_for := by
      simp [appDlhClass, hl1]
    have hcls2 : appDlhClass a2 = c2.template_for := by
      simp [appDlhClass, hl2]
    rw [hcls1, hcls2] at hq1 hq2 hn1 hn2
    rw [generate_modules_some a1 c1 hl1, generate_modules_some a2 c2 hl2]
    have hstage := tpStage_skel a1.tp_handler a2.tp_handler htp
      (resolveNetworkRules a1.network_rules c1.template_for).2
      (resolveNetworkRules a2.network_rules c2.template_for).2 hn2
      (resolveQueueRules a1.queue_rules c1.template_for).2
      (resolveQueueRules a2.queue_rules c2.template_for).2 hq2
      a2.get_tp_src_id
    rw [hsrc]
    cases hs1 : tpStage a1.tp_handler
        (resolveNetworkRules a1.network_rules c1.template_for).2
        (resolveQueueRules a1.queue_rules c1.template_for).2
        a2.get_tp_src_id with
    | error e1 =>
      rw [hs1] at hstage
      cases hs2 : tpStage a2.tp_handler
          (resolveNetworkRules a2.network_rules c2.template_for).2
          (resolveQueueRules a2.queue_rules c2.template_for).2
          a2.get_tp_src_id with
      | error e2 =>
        rw [hs2] at hstage
        simp only [tpResultSkel, Except.map] at hstage
        injection hstage with he
        rw [he]
      | ok t2 =>
        rw [hs2] at hstage
        simp [tpResultSkel, Except.map] at hstage
    | ok t1 =>
      obtain ⟨recs1, mods1, tpq1⟩ := t1
      rw [hs1] at hstage
      cases hs2 : tpStage a2.tp_handler
          (resolveNetworkRules a2.network_rules c2.template_for).2
          (resolveQueueRules a2.queue_rules c2.template_for).2
          a2.get_tp_src_id with
      | error e2 =>
        rw [hs2] at hstage
        simp [tpResultSkel, Except.map] at hstage
      | ok t2 =>
        obtain ⟨recs2, mods2, tpq2⟩ := t2
        rw [hs2] at hstage
        simp only [tpResultSkel, Except.map, Except.ok.injEq, Prod.mk.injEq] at hstage
        obtain ⟨hru, hmm, htq⟩ := hstage
        subst hmm htq
        cases hd1 : a1.data_reader with
        | none =>
          have hd2 : a2.data_reader = none := by
            rw [hd1] at hdr
            cases hd2 : a2.data_reader with
            | none => rfl
            | some r2 => rw [hd2] at hdr; simp at hdr
          rw [hd2]
          simp [resultSkel, hru]
        | some rdr1 =>
          obtain ⟨rdr2, hd2⟩ : ∃ r2, a2.data_reader = some r2 := by
            rw [hd1] at hdr
            cases hd2 : a2.data_reader with
            | none => rw [hd2] at hdr; simp at hdr
            | some r2 => exact ⟨r2, rfl⟩
          rw [hd2]
          simp only []
          obtain ⟨hgu, hgr⟩ := processGroups_skel a1.uid c1.template_for
            c2.template_for c1.config_object c2.config_object tpq1 rdr1 rdr2
            (resolveQueueRules a1.queue_rules c1.template_for).1
            (resolveQueueRules a2.queue_rules c2.template_for).1 hq1
            (resolveNetworkRules a1.network_rules c1.template_for).1
            (resolveNetworkRules a2.network_rules c2.template_for).1 hn1
            a1.contains a2.contains hgs 0 0
          rw [huid] at hgu hgr
          cases hpg1 : processGroups a2.uid c1.template_for c1.config_object
              tpq1 (resolveQueueRules a1.queue_rules c1.template_for).1
              (resolveNetworkRules a1.network_rules c1.template_for).1
              rdr1 a1.contains 0 0 with
          | mk grecs1 gres1 =>
            cases hpg2 : processGroups a2.uid c2.template_for c2.config_object
                tpq1 (resolveQueueRules a2.queue_rules c2.template_for).1
                (resolveNetworkRules a2.network_rules c2.template_for).1
                rdr2 a2.contains 0 0 with
            | mk grecs2 gres2 =>
              rw [hpg1, hpg2] at hgu hgr
              simp only [] at hgu hgr
              subst hgr
              rw [← huid] at hpg1
              rw [hpg1]
              cases gres1 with
              | error e => simp [resultSkel, List.map_append, hru, hgu]
              | ok gmods => simp [resultSkel, List.map_append, hru, hgu]

/-- Witness for `generation_identifier_invariance`: `appScen` and
`appDetB` differ in class names, config objects, capacities, data types
and base port but share the uid skeleton, so their runs produce identical
uid lists and module references. -/
theorem generation_identifier_invariance_witness :
    resultSkel (generate_modules appScen) = resultSkel (generate_modules appDetB) :=
  generation_identifier_invariance appScen appDetB rfl

end Readoutdal
